import Mathlib

/-!
Shallow embedding of the HWB scanner core of `turnDeep/Tore-Ken`
(`src/backend/hwb_scanner.py` and `src/backend/hwb_data_manager.py`).

Modelling conventions:
* Prices and derived quantities are rationals (`ℚ`), standing in for the
  Python floats; exact arithmetic replaces floating point rounding.
* Dates are natural numbers counting days from an epoch that falls on a
  Monday, so `weekday d = d % 7` and weekdays `0..4` are business days
  (this mirrors `datetime.date.weekday()` with Monday = 0).
* A pandas `DataFrame` of daily bars is a `List DailyBar` in index order;
  a null cell (`NaN`) in the `sma200` / `ema200` columns is `Option.none`.
  The weekly frame additionally records whether the `sma200` column is
  present at all (`smaColPresent`), because the source tests
  `'sma200' not in df.columns` separately from the values being null.
* `uuid.uuid4()` is replaced by a deterministic counter threaded through
  the analysis: each freshly created Setup/FVG receives the next id.
  Uniqueness is all the source relies on.
* `datetime.now()` is an explicit `now` parameter.
* Python exceptions that propagate out of a function are modelled with
  `Option`: `none` is an escaped exception, caught by the caller exactly
  where the source has a `try/except`.
* The RS-rating computation (`_calculate_rs_rating_at_date`) depends on
  external benchmark data; it is passed in as an oracle `ℕ → Option ℚ`
  (breakout date to optional rating), matching its use sites.
-/

namespace HWB

/-- One row of the daily price frame.  `sma200`/`ema200` are the
moving-average columns computed by the data manager; `none` models NaN. -/
structure DailyBar where
  date : ℕ
  opn : ℚ
  high : ℚ
  low : ℚ
  close : ℚ
  volume : ℚ
  sma200 : Option ℚ
  ema200 : Option ℚ
  deriving DecidableEq, Repr

/-- One row of the weekly price frame. -/
structure WeeklyBar where
  date : ℕ
  close : ℚ
  sma200 : Option ℚ
  deriving DecidableEq, Repr

/-- The weekly frame: its rows plus whether the `sma200` column exists. -/
structure WeeklyFrame where
  rows : List WeeklyBar
  smaColPresent : Bool
  deriving DecidableEq, Repr

/-- Status values used for Setups and GapZones (`'active'`, `'consumed'`,
`'violated'` in the source JSON). -/
inductive Status where
  | active
  | consumed
  | violated
  deriving DecidableEq, Repr

/-- Setup type: `'PRIMARY'` or `'SECONDARY'`. -/
inductive SetupType where
  | primary
  | secondary
  deriving DecidableEq, Repr

/-- A Rule-2 setup record. -/
structure Setup where
  id : ℕ
  date : ℕ
  type : SetupType
  status : Status
  weeklyDeviation : Option ℚ
  deriving DecidableEq, Repr

/-- A Rule-3 FVG (GapZone) record. -/
structure Fvg where
  id : ℕ
  setupId : ℕ
  formationDate : ℕ
  gapPercentage : ℚ
  lowerBound : ℚ
  upperBound : ℚ
  status : Status
  violatedDate : Option ℕ
  deriving DecidableEq, Repr

/-- Volume metrics attached to a breakout
(`_calculate_volume_increase_at_date`).  The source casts the two volume
numbers with `int(...)` and rounds the percentage with `round(_, 1)`;
these are modelled exactly below (`pyInt`, `pyRound1`). -/
structure VolMetrics where
  breakoutVolume : ℤ
  avgVolume20d : ℤ
  volumeIncreasePct : ℚ
  deriving DecidableEq, Repr

/-- The breakout-detector result: either a violation (with the date pandas
`idxmin` reports) or a breakout payload. -/
structure BreakoutInfo where
  breakoutDate : ℕ
  breakoutPrice : ℚ
  resistancePrice : ℚ
  breakoutPercentage : ℚ
  volume : Option VolMetrics
  deriving DecidableEq, Repr

inductive BreakoutResult where
  | violated (violatedDate : ℕ)
  | breakout (info : BreakoutInfo)
  deriving DecidableEq, Repr

/-- A Signal: the merged dict `{**fvg, **breakout}` plus the optional
`rs_rating`.  (The fvg's `status` key is overwritten by the breakout's
`'status': 'breakout'`, so no status field is kept here.) -/
structure Signal where
  id : ℕ
  setupId : ℕ
  formationDate : ℕ
  gapPercentage : ℚ
  lowerBound : ℚ
  upperBound : ℚ
  breakoutDate : ℕ
  breakoutPrice : ℚ
  resistancePrice : ℚ
  breakoutPercentage : ℚ
  volume : Option VolMetrics
  rsRating : Option ℚ
  deriving DecidableEq, Repr

/-- The persisted per-symbol analysis state (the symbol's JSON file).
`lastUpdated` stores only the date part of the `last_updated` ISO
timestamp, which is all the differential analyzer reads back. -/
structure SymState where
  lastUpdated : ℕ
  setups : List Setup
  fvgs : List Fvg
  signals : List Signal
  deriving DecidableEq, Repr

/-- Categories of the daily summary. -/
inductive SigType where
  | today
  | recent
  | candidate
  deriving DecidableEq, Repr

/-- One entry of the per-symbol summary list built by
`_create_summary_from_data` (symbol omitted: single-symbol context). -/
structure SummaryItem where
  sigType : SigType
  sigDate : ℕ
  rsRating : Option ℚ
  volumeIncreasePct : Option ℚ
  deriving DecidableEq, Repr

/-! ### Constants (the `os.getenv` defaults of `hwb_scanner.py`) -/

def WEEKLY_TREND_THRESHOLD : ℚ := 0
def SETUP_LOOKBACK_DAYS : ℕ := 30
def INITIAL_SCAN_MIN_HISTORY_DAYS : ℕ := 1000
def FVG_MIN_GAP_PERCENTAGE : ℚ := 0.001
def FVG_MAX_SEARCH_DAYS : ℕ := 20
def PROXIMITY_PERCENTAGE : ℚ := 0.05
def FVG_ZONE_PROXIMITY : ℚ := 0.10
def BREAKOUT_THRESHOLD : ℚ := 0.001

/-! ### Small pandas-like helpers -/

/-- Position of a date in the daily index (`df.index.get_loc`), assuming a
unique index; `none` models the `KeyError`. -/
def idxOfDate (df : List DailyBar) (d : ℕ) : Option ℕ :=
  df.findIdx? (fun b => b.date = d)

/-- Left insertion point of a date in the (sorted) daily index
(`df.index.searchsorted`). -/
def searchsortedD (df : List DailyBar) (d : ℕ) : ℕ :=
  df.countP (fun b => b.date < d)

/-- Maximum of a pandas series (`series.max()`); `none` on an empty series. -/
def seriesMax (l : List ℚ) : Option ℚ :=
  l.foldl (fun acc x =>
    match acc with
    | none => some x
    | some m => some (max m x)) none

/-- Minimum of a pandas series (`series.min()`). -/
def seriesMin (l : List ℚ) : Option ℚ :=
  l.foldl (fun acc x =>
    match acc with
    | none => some x
    | some m => some (min m x)) none

/-- Date of the first bar attaining the minimum low
(`post_fvg_data['low'].idxmin()`). -/
def lowIdxmin (l : List DailyBar) : Option ℕ :=
  match seriesMin (l.map (fun b => b.low)) with
  | none => none
  | some m => (l.find? (fun b => b.low = m)).map (fun b => b.date)

/-- Python `int(...)` on a nonnegative float: truncation toward zero,
i.e. the floor for the nonnegative values it is applied to. -/
def pyInt (q : ℚ) : ℤ :=
  if q ≥ 0 then ⌊q⌋ else ⌈q⌉

/-- Python `round(x, 1)`: round half to even at one decimal. -/
def pyRound1 (q : ℚ) : ℚ :=
  (round (q * 10) : ℤ) / 10

/-- Drop rows whose date occurs again later
(`df[~df.index.duplicated(keep='last')]`). -/
def dedupKeepLastD (l : List DailyBar) : List DailyBar :=
  l.reverse.foldl (fun acc b =>
    if acc.any (fun x => x.date = b.date) then acc else b :: acc) []

/-- Weekly version of `dedupKeepLastD`. -/
def dedupKeepLastW (l : List WeeklyBar) : List WeeklyBar :=
  l.reverse.foldl (fun acc b =>
    if acc.any (fun x => x.date = b.date) then acc else b :: acc) []

/-- Rolling 14-bar ATR value at index `i`:
`(df['high'] - df['low']).rolling(14).mean()` evaluated at `i`
(`none` models the NaN produced while fewer than 14 bars exist). -/
def atr14 (df : List DailyBar) (i : ℕ) : Option ℚ :=
  if i + 1 < 14 then none
  else some ((((df.drop (i - 13)).take 14).map (fun b => b.high - b.low)).sum / 14)

/-! ### Rule 1: weekly trend filter -/

/-- Rule 1 at the latest bar (`HWBAnalyzer.optimized_rule1`; the daily
frame argument is unused by the source as well). -/
def optimized_rule1 (_dfDaily : List DailyBar) (w : WeeklyFrame) : Bool :=
  if w.rows.isEmpty then false
  else if !w.smaColPresent || w.rows.all (fun b => b.sma200.isNone) then false
  else
    match w.rows.getLast? with
    | none => false
    | some latest =>
      match latest.sma200 with
      | none => false
      | some s =>
        if s = 0 then false
        else decide ((latest.close - s) / s ≥ WEEKLY_TREND_THRESHOLD)

/-- Rule 1 as of a given date (`HWBAnalyzer.check_weekly_trend_at_date`). -/
def check_weekly_trend_at_date (w : WeeklyFrame) (checkDate : ℕ) : Bool :=
  if w.rows.isEmpty then false
  else
    let hist := w.rows.filter (fun b => b.date ≤ checkDate)
    if hist.isEmpty then false
    else if !w.smaColPresent || hist.all (fun b => b.sma200.isNone) then false
    else
      match hist.getLast? with
      | none => false
      | some latest =>
        match latest.sma200 with
        | none => false
        | some s =>
          if s = 0 then false
          else decide ((latest.close - s) / s ≥ WEEKLY_TREND_THRESHOLD)

/-- Deviation from the weekly 200-SMA as of a date
(`HWBAnalyzer._get_weekly_deviation_at_date`); the surrounding
`try/except` returns `None` when the column is missing. -/
def getWeeklyDeviationAtDate (w : WeeklyFrame) (checkDate : ℕ) : Option ℚ :=
  if !w.smaColPresent then none
  else
    let hist := w.rows.filter (fun b => b.date ≤ checkDate)
    match hist.getLast? with
    | none => none
    | some latest =>
      match latest.sma200 with
      | none => none
      | some s => if s = 0 then none else some ((latest.close - s) / s)

/-! ### Rule 2: setup detection -/

/-- Setup data computed for one bar, before an id is assigned. -/
structure SetupCore where
  date : ℕ
  type : SetupType
  weeklyDeviation : Option ℚ
  deriving DecidableEq, Repr

/-- Body of the Rule-2 scan loop for index `i` (the body of the `for`
loop of `optimized_rule2_setups`): `none` when the bar yields no setup. -/
def rule2Classify (df : List DailyBar) (w : WeeklyFrame) (i : ℕ) : Option SetupCore :=
  match df.get? i with
  | none => none
  | some row =>
    if !check_weekly_trend_at_date w row.date then none
    else
      match row.sma200, row.ema200 with
      | some sma, some ema =>
        let zoneWidth0 := |sma - ema|
        let zoneWidth :=
          match atr14 df i with
          | some a =>
            if a > 0 then max zoneWidth0 (row.close * (a / row.close) * 0.5)
            else zoneWidth0
          | none => zoneWidth0
        let zoneUpper := max sma ema + zoneWidth * 0.2
        let zoneLower := min sma ema - zoneWidth * 0.2
        if zoneLower ≤ row.opn ∧ row.opn ≤ zoneUpper ∧
           zoneLower ≤ row.close ∧ row.close ≤ zoneUpper then
          some ⟨row.date, .primary, getWeeklyDeviationAtDate w row.date⟩
        else if (zoneLower ≤ row.opn ∧ row.opn ≤ zoneUpper) ∨
                (zoneLower ≤ row.close ∧ row.close ≤ zoneUpper) then
          let bodyCenter := (row.opn + row.close) / 2
          if zoneLower ≤ bodyCenter ∧ bodyCenter ≤ zoneUpper then
            some ⟨row.date, .secondary, getWeeklyDeviationAtDate w row.date⟩
          else none
        else none
      | _, _ => none

/-- Start index of the Rule-2 scan (`optimized_rule2_setups`, scan-range
selection).  `df.index.searchsorted` is total, so the source's
`try/except` fallback around it is unreachable. -/
def rule2ScanStart (df : List DailyBar) (fullScan : Bool)
    (scanStartDate : Option ℕ) : ℕ :=
  if fullScan then max 0 INITIAL_SCAN_MIN_HISTORY_DAYS
  else
    match scanStartDate with
    | some d => searchsortedD df d
    | none => df.length - SETUP_LOOKBACK_DAYS

/-- Rule 2 (`HWBAnalyzer.optimized_rule2_setups`), with ids assigned
sequentially from `firstId` in place of `uuid.uuid4()`. -/
def optimized_rule2_setups (df : List DailyBar) (w : WeeklyFrame)
    (fullScan : Bool) (scanStartDate : Option ℕ) (firstId : ℕ) : List Setup :=
  let scanStart := rule2ScanStart df fullScan scanStartDate
  if scanStart ≥ df.length then []
  else
    let cores := (List.range' scanStart (df.length - scanStart)).filterMap
      (rule2Classify df w)
    cores.enum.map (fun p =>
      { id := firstId + p.1, date := p.2.date, type := p.2.type,
        status := .active, weeklyDeviation := p.2.weeklyDeviation })

/-! ### Rule 3: FVG detection -/

/-- MA-proximity test for a candidate FVG
(`HWBAnalyzer._check_fvg_ma_proximity`). -/
def check_fvg_ma_proximity (candle3 candle1 : DailyBar) : Bool :=
  match candle3.sma200, candle3.ema200 with
  | some sma, some ema =>
    let condA := [candle3.opn, candle3.close].any (fun price =>
      decide (|price - sma| / sma ≤ PROXIMITY_PERCENTAGE) ||
      decide (|price - ema| / ema ≤ PROXIMITY_PERCENTAGE))
    if condA then true
    else
      let fvgCenter := (candle1.high + candle3.low) / 2
      decide (|fvgCenter - sma| / sma ≤ FVG_ZONE_PROXIMITY) ||
      decide (|fvgCenter - ema| / ema ≤ FVG_ZONE_PROXIMITY)
  | _, _ => false

/-- FVG data computed for the 3-bar window ending at index `i`, before an
id is assigned (shared body of the two detection loops). -/
structure FvgCore where
  formationDate : ℕ
  gapPercentage : ℚ
  lowerBound : ℚ
  upperBound : ℚ
  deriving DecidableEq, Repr

/-- Body of the FVG detection loops for third-candle index `i`. -/
def fvgAtIndex (df : List DailyBar) (i : ℕ) : Option FvgCore :=
  match df.get? (i - 2), df.get? i with
  | some candle1, some candle3 =>
    if candle3.low ≤ candle1.high then none
    else
      let gapPercentage := (candle3.low - candle1.high) / candle1.high
      if gapPercentage < FVG_MIN_GAP_PERCENTAGE then none
      else if !check_fvg_ma_proximity candle3 candle1 then none
      else some ⟨candle3.date, gapPercentage, candle1.high, candle3.low⟩
  | _, _ => none

/-- Attach setup ownership, sequential ids and `'active'` status to the
cores found by a detection loop. -/
def mkFvgs (setup : Setup) (firstId : ℕ) (cores : List FvgCore) : List Fvg :=
  cores.enum.map (fun p =>
    { id := firstId + p.1, setupId := setup.id,
      formationDate := p.2.formationDate,
      gapPercentage := p.2.gapPercentage,
      lowerBound := p.2.lowerBound, upperBound := p.2.upperBound,
      status := .active, violatedDate := none })

/-- Rule 3 (`HWBAnalyzer.optimized_fvg_detection`): scan third-candle
indexes `setup_idx + 2 ≤ i < min (setup_idx + 20) (len - 1)`.  The inner
`if i >= len(df_daily): break` is unreachable because the upper bound is
below `len`. -/
def optimized_fvg_detection (df : List DailyBar) (setup : Setup)
    (firstId : ℕ) : List Fvg :=
  match idxOfDate df setup.date with
  | none => []
  | some setupIdx =>
    let searchEnd := min (setupIdx + FVG_MAX_SEARCH_DAYS) (df.length - 1)
    let idxs := List.range' (setupIdx + 2) (searchEnd - (setupIdx + 2))
    mkFvgs setup firstId (idxs.filterMap (fvgAtIndex df))

/-- Differential-path FVG detection over an explicit index range
(`HWBScanner._detect_fvg_in_range`); indexes `< 2` are skipped. -/
def detectFvgInRange (df : List DailyBar) (setup : Setup)
    (startIdx endIdx firstId : ℕ) : List Fvg :=
  let idxs := List.range' startIdx (endIdx - startIdx)
  mkFvgs setup firstId
    (idxs.filterMap (fun i => if i < 2 then none else fvgAtIndex df i))

/-! ### Rule 4: breakout detection -/

/-- Volume-increase metrics at a breakout date
(`HWBAnalyzer._calculate_volume_increase_at_date`).  The daily frame is
modelled with the `volume` column always present. -/
def calculateVolumeIncreaseAtDate (df : List DailyBar) (targetDate : ℕ) :
    Option VolMetrics :=
  let hist := df.filter (fun b => b.date ≤ targetDate)
  if hist.length < 21 then none
  else
    match hist.getLast? with
    | none => none
    | some lastBar =>
      let breakoutVolume := lastBar.volume
      let window := (hist.drop (hist.length - 21)).take 20
      let avgVolume20d := (window.map (fun b => b.volume)).sum / 20
      if avgVolume20d = 0 then none
      else
        some { breakoutVolume := pyInt breakoutVolume,
               avgVolume20d := pyInt avgVolume20d,
               volumeIncreasePct :=
                 pyRound1 ((breakoutVolume / avgVolume20d - 1) * 100) }

/-- The resistance range `[resistance_start_idx, resistance_end_idx)` used
by both breakout checkers: bars strictly after the setup bar and strictly
before the FVG formation bar, falling back to
`[max 0 (setup_idx - 10), setup_idx + 1)` when that range is empty.
(Nat subtraction already truncates at 0, matching `max(0, ...)`.) -/
def resistanceRange (setupIdx fvgIdx : ℕ) : ℕ × ℕ :=
  if fvgIdx ≤ setupIdx + 1 then (setupIdx - 10, setupIdx + 1)
  else (setupIdx + 1, fvgIdx)

/-- Resistance level: `resistance_data['high'].max()` over the resistance
range; `none` when the slice is empty. -/
def resistanceLevel (df : List DailyBar) (setupIdx fvgIdx : ℕ) : Option ℚ :=
  let r := resistanceRange setupIdx fvgIdx
  seriesMax (((df.drop r.1).take (r.2 - r.1)).map (fun b => b.high))

/-- Breakout payload for the first triggering index in `idxs`, an
increasing list of candidate bar indexes. -/
def firstBreakout (df : List DailyBar) (resistanceHigh : ℚ)
    (idxs : List ℕ) : Option BreakoutInfo :=
  idxs.findSome? (fun i =>
    match df.get? i with
    | none => none
    | some current =>
      if current.close > resistanceHigh * (1 + BREAKOUT_THRESHOLD) then
        some { breakoutDate := current.date,
               breakoutPrice := current.close,
               resistancePrice := resistanceHigh,
               breakoutPercentage := (current.close / resistanceHigh - 1) * 100,
               volume := calculateVolumeIncreaseAtDate df current.date }
      else none)

/-- Rule 4, full-scan path
(`HWBAnalyzer.optimized_breakout_detection_all_periods`): violation check
over the whole suffix from the formation bar first, then the first
close above `resistance * (1 + 0.001)` scanning from the bar after
formation to the end of the data. -/
def optimized_breakout_detection_all_periods (df : List DailyBar)
    (setup : Setup) (fvg : Fvg) : Option BreakoutResult :=
  match idxOfDate df setup.date, idxOfDate df fvg.formationDate with
  | some setupIdx, some fvgIdx =>
    match resistanceLevel df setupIdx fvgIdx with
    | none => none
    | some resistanceHigh =>
      let postFvg := df.drop fvgIdx
      match seriesMin (postFvg.map (fun b => b.low)) with
      | some minLow =>
        if minLow < fvg.lowerBound * 0.98 then
          (lowIdxmin postFvg).map (fun d => .violated d)
        else
          (firstBreakout df resistanceHigh
            (List.range' (fvgIdx + 1) (df.length - (fvgIdx + 1)))).map
            (fun info => .breakout info)
      | none =>
        (firstBreakout df resistanceHigh
          (List.range' (fvgIdx + 1) (df.length - (fvgIdx + 1)))).map
          (fun info => .breakout info)
  | _, _ => none

/-- Rule 4, differential path (`HWBScanner._check_breakout_in_range`):
same resistance computation, but the scan runs only over
`[start_idx, end_idx)` and there is no violation check at all. -/
def checkBreakoutInRange (df : List DailyBar) (setup : Setup) (fvg : Fvg)
    (startIdx endIdx : ℕ) : Option BreakoutResult :=
  match idxOfDate df setup.date, idxOfDate df fvg.formationDate with
  | some setupIdx, some fvgIdx =>
    match resistanceLevel df setupIdx fvgIdx with
    | none => none
    | some resistanceHigh =>
      (firstBreakout df resistanceHigh
        (List.range' startIdx (endIdx - startIdx))).map
        (fun info => .breakout info)
  | _, _ => none

/-! ### Summary aggregation -/

/-- Fifth business day before `today` (the `while business_days_back < 5`
loop of `_create_summary_from_data`); weekday of day `d` is `d % 7` with
the epoch on a Monday.  The `cur = 0` guard only protects the model from
underflow at unrealistically small dates. -/
def fiveBusinessDaysAgo (today : ℕ) : ℕ :=
  go today 5
where
  go : ℕ → ℕ → ℕ
  | cur, 0 => cur
  | 0, _ + 1 => 0
  | cur + 1, needed + 1 =>
    if cur % 7 < 5 then go cur needed else go cur (needed + 1)

/-- Per-symbol summary rows (`HWBScanner._create_summary_from_data`). -/
def createSummaryFromData (signals : List Signal) (fvgs : List Fvg)
    (latestMarketDate : ℕ) : List SummaryItem :=
  let today := latestMarketDate
  let fiveAgo := fiveBusinessDaysAgo today
  let signalItems := signals.filterMap (fun s =>
    if s.breakoutDate = today then
      some { sigType := .today, sigDate := s.breakoutDate,
             rsRating := s.rsRating,
             volumeIncreasePct := s.volume.map (fun v => v.volumeIncreasePct) }
    else if fiveAgo ≤ s.breakoutDate ∧ s.breakoutDate < today then
      some { sigType := .recent, sigDate := s.breakoutDate,
             rsRating := s.rsRating,
             volumeIncreasePct := s.volume.map (fun v => v.volumeIncreasePct) }
    else none)
  let candidateItems := fvgs.filterMap (fun f =>
    if f.status = Status.active ∧ fiveAgo ≤ f.formationDate ∧
       f.formationDate ≤ today then
      some { sigType := .candidate, sigDate := f.formationDate,
             rsRating := none, volumeIncreasePct := none }
    else none)
  signalItems ++ candidateItems

/-! ### Full analysis (`HWBScanner._full_analysis`) -/

/-- Signal built from an FVG plus a breakout payload
(`signal = {**fvg, **breakout}` with the optional `rs_rating`). -/
def mkSignal (fvg : Fvg) (info : BreakoutInfo) (rsRating : Option ℚ) : Signal :=
  { id := fvg.id, setupId := fvg.setupId,
    formationDate := fvg.formationDate,
    gapPercentage := fvg.gapPercentage,
    lowerBound := fvg.lowerBound, upperBound := fvg.upperBound,
    breakoutDate := info.breakoutDate, breakoutPrice := info.breakoutPrice,
    resistancePrice := info.resistancePrice,
    breakoutPercentage := info.breakoutPercentage,
    volume := info.volume, rsRating := rsRating }

/-- Inner loop of `_full_analysis` over one setup's FVG list: returns the
emitted FVGs and the at-most-one signal.  On a breakout the loop
`break`s (hwb_scanner.py line 692) *before* the `all_fvgs.append(fvg)`
at the end of the loop body (line 700), so the consuming FVG itself is
never emitted, and neither is any FVG after it. -/
def processFvgs (rs : ℕ → Option ℚ) (df : List DailyBar) (setup : Setup)
    (consumedFvgs : List ℕ) : List Fvg → List Fvg × Option Signal
  | [] => ([], none)
  | fvg :: rest =>
    if consumedFvgs.contains fvg.id then
      let r := processFvgs rs df setup consumedFvgs rest
      ({ fvg with status := .consumed } :: r.1, r.2)
    else
      match optimized_breakout_detection_all_periods df setup fvg with
      | some (.breakout info) =>
        ([], some (mkSignal fvg info (rs info.breakoutDate)))
      | some (.violated d) =>
        let r := processFvgs rs df setup consumedFvgs rest
        ({ fvg with status := .violated, violatedDate := some d } :: r.1, r.2)
      | none =>
        let r := processFvgs rs df setup consumedFvgs rest
        ({ fvg with status := .active } :: r.1, r.2)

/-- Outer loop of `_full_analysis` over the setups; threads the
`consumed_setups` / `consumed_fvgs` id sets and the fresh-id counter. -/
def processSetups (rs : ℕ → Option ℚ) (df : List DailyBar) :
    List Setup → List ℕ → List ℕ → ℕ →
    List Setup × List Fvg × List Signal × ℕ
  | [], _, _, nextId => ([], [], [], nextId)
  | setup :: rest, consumedSetups, consumedFvgs, nextId =>
    if consumedSetups.contains setup.id then
      let r := processSetups rs df rest consumedSetups consumedFvgs nextId
      ({ setup with status := .consumed } :: r.1, r.2)
    else
      let fvgs := optimized_fvg_detection df setup nextId
      let nextId1 := nextId + fvgs.length
      let inner := processFvgs rs df setup consumedFvgs fvgs
      match inner.2 with
      | some signal =>
        let r := processSetups rs df rest (consumedSetups ++ [setup.id])
          (consumedFvgs ++ [signal.id]) nextId1
        ({ setup with status := .consumed } :: r.1,
         inner.1 ++ r.2.1, signal :: r.2.2.1, r.2.2.2)
      | none =>
        let r := processSetups rs df rest consumedSetups consumedFvgs nextId1
        ({ setup with status := .active } :: r.1,
         inner.1 ++ r.2.1, r.2.2.1, r.2.2.2)

/-- Initial full scan (`HWBScanner._full_analysis`): returns `none`
exactly when the source returns `None` without saving anything (no
setups, or no signal and no active FVG); otherwise the saved state and
the per-symbol summary. -/
def fullAnalysis (rs : ℕ → Option ℚ) (df : List DailyBar) (w : WeeklyFrame)
    (latestMarketDate now firstId : ℕ) :
    Option (SymState × List SummaryItem) :=
  let setups := optimized_rule2_setups df w true none firstId
  if setups.isEmpty then none
  else
    let r := processSetups rs df setups [] [] (firstId + setups.length)
    let outSetups := r.1
    let outFvgs := r.2.1
    let outSignals := r.2.2.1
    if outSignals.isEmpty && outFvgs.all (fun f => !(f.status == Status.active))
    then none
    else
      some ({ lastUpdated := now, setups := outSetups, fvgs := outFvgs,
              signals := outSignals },
            createSummaryFromData outSignals outFvgs latestMarketDate)

/-! ### Differential analysis (`HWBScanner._differential_analysis`) -/

/-- Mutable locals of `_differential_analysis`: the (shared, in-place
mutated) `existing_data` lists, the ids of `new_fvgs_found`, the
`updated` flag and the fresh-id counter. -/
structure DiffAcc where
  setups : List Setup
  fvgs : List Fvg
  signals : List Signal
  newFvgIds : List ℕ
  updated : Bool
  nextId : ℕ
  deriving DecidableEq, Repr

/-- Phase 1 of the differential analysis, one active setup: search for new
FVGs in the window after the later of the setup's newest owned gap and
the watermark.  `none` models the uncaught `KeyError` of
`df_daily.index.get_loc(setup_date)`. -/
def diffFvgSearchStep (df : List DailyBar) (lastAnalyzed : ℕ)
    (acc : DiffAcc) (setup : Setup) : Option DiffAcc :=
  match idxOfDate df setup.date with
  | none => none
  | some setupIdx =>
    let setupFvgs := acc.fvgs.filter (fun f => f.setupId = setup.id)
    let searchStart0 :=
      if !setupFvgs.isEmpty then
        match (setupFvgs.map (fun f => f.formationDate)).max? with
        | some lastFvgDate => searchsortedD df (lastFvgDate + 1)
        | none => setupIdx + 2
      else setupIdx + 2
    let searchEnd := min (setupIdx + FVG_MAX_SEARCH_DAYS) (df.length - 1)
    let newDataStart := searchsortedD df (lastAnalyzed + 1)
    let searchStart := max searchStart0 newDataStart
    if searchStart ≥ searchEnd then some acc
    else
      let newFvgs := detectFvgInRange df setup searchStart searchEnd acc.nextId
      if newFvgs.isEmpty then some acc
      else some { acc with
        fvgs := acc.fvgs ++ newFvgs,
        newFvgIds := acc.newFvgIds ++ newFvgs.map (fun f => f.id),
        updated := true,
        nextId := acc.nextId + newFvgs.length }

/-- Phase 2 of the differential analysis: walk `all_active_fvgs` (by id,
looking the current record up in the shared list), check for a breakout
over the bars newer than the watermark, and on the first breakout emit
the signal, consume the setup and all its FVGs, and break.  `none`
models the uncaught `KeyError` of `get_loc(fvg_date)`. -/
def diffBreakoutLoop (rs : ℕ → Option ℚ) (df : List DailyBar)
    (lastAnalyzed : ℕ) : List ℕ → DiffAcc → Option DiffAcc
  | [], acc => some acc
  | fvgId :: rest, acc =>
    match acc.fvgs.find? (fun f => f.id = fvgId) with
    | none => diffBreakoutLoop rs df lastAnalyzed rest acc
    | some fvg =>
      match acc.setups.find? (fun s => s.id = fvg.setupId) with
      | none => diffBreakoutLoop rs df lastAnalyzed rest acc
      | some setup =>
        if setup.status = Status.consumed then
          diffBreakoutLoop rs df lastAnalyzed rest acc
        else
          match idxOfDate df fvg.formationDate with
          | none => none
          | some fvgIdx =>
            let newDataStart := searchsortedD df (lastAnalyzed + 1)
            let checkStart := max (fvgIdx + 1) newDataStart
            if checkStart ≥ df.length then
              diffBreakoutLoop rs df lastAnalyzed rest acc
            else
              match checkBreakoutInRange df setup fvg checkStart df.length with
              | some (.breakout info) =>
                let signal := mkSignal fvg info (rs info.breakoutDate)
                some { acc with
                  signals := acc.signals ++ [signal],
                  setups := acc.setups.map (fun s =>
                    if s.id = setup.id then { s with status := .consumed }
                    else s),
                  fvgs := acc.fvgs.map (fun f =>
                    if f.setupId = setup.id then { f with status := .consumed }
                    else f),
                  updated := true }
              | some (.violated d) =>
                diffBreakoutLoop rs df lastAnalyzed rest { acc with
                  fvgs := acc.fvgs.map (fun f =>
                    if f.id = fvgId then
                      { f with status := .violated, violatedDate := some d }
                    else f),
                  updated := true }
              | none => diffBreakoutLoop rs df lastAnalyzed rest acc

/-- Differential analysis (`HWBScanner._differential_analysis`).  Returns
the state after the run, whether it was persisted (`updated`), and the
summary; `none` models an exception escaping to
`_analyze_and_save_symbol`'s handler.  The state is persisted — and
`last_updated` set to the wall-clock `now` — only when `updated`. -/
def differentialAnalysis (rs : ℕ → Option ℚ) (df : List DailyBar)
    (w : WeeklyFrame) (existing : SymState) (latestMarketDate now firstId : ℕ) :
    Option (SymState × Bool × List SummaryItem) :=
  let activeSetups := existing.setups.filter (fun s => s.status = Status.active)
  let activeFvgs := existing.fvgs.filter (fun f => f.status = Status.active)
  let lastAnalyzed := existing.lastUpdated
  if latestMarketDate ≤ lastAnalyzed then
    some (existing, false, createSummaryFromData existing.signals
      existing.fvgs latestMarketDate)
  else
    let acc0 : DiffAcc :=
      { setups := existing.setups, fvgs := existing.fvgs,
        signals := existing.signals, newFvgIds := [], updated := false,
        nextId := firstId }
    match activeSetups.foldlM (diffFvgSearchStep df lastAnalyzed) acc0 with
    | none => none
    | some acc1 =>
      match diffBreakoutLoop rs df lastAnalyzed
        (activeFvgs.map (fun f => f.id) ++ acc1.newFvgIds) acc1 with
      | none => none
      | some acc2 =>
        let acc3 :=
          if activeSetups.isEmpty ||
             acc2.setups.all (fun s => s.status == Status.consumed) then
            let newSetups := optimized_rule2_setups df w false
              (some (lastAnalyzed + 1)) acc2.nextId
            if newSetups.isEmpty then acc2
            else
              { acc2 with
                setups := acc2.setups ++ newSetups,
                updated := true,
                nextId := acc2.nextId + newSetups.length }
          else acc2
        let finalState :=
          if acc3.updated then
            { lastUpdated := now, setups := acc3.setups, fvgs := acc3.fvgs,
              signals := acc3.signals }
          else existing
        some (finalState, acc3.updated,
          createSummaryFromData acc3.signals acc3.fvgs latestMarketDate)

/-! ### Per-symbol driver (`HWBScanner._analyze_and_save_symbol`) -/

/-- Single-symbol analysis with state-based differential processing.
Returns the summary rows (or `none` where the source returns `None`)
and the persisted state after the run (`existing` when nothing was
saved). -/
def analyzeAndSaveSymbol (rs : ℕ → Option ℚ) (dfDaily : List DailyBar)
    (w : WeeklyFrame) (existing : Option SymState) (now firstId : ℕ) :
    Option (List SummaryItem) × Option SymState :=
  if dfDaily.isEmpty || w.rows.isEmpty then (none, existing)
  else
    let df := dedupKeepLastD dfDaily
    let wd : WeeklyFrame := { w with rows := dedupKeepLastW w.rows }
    match df.getLast? with
    | none => (none, existing)
    | some lastBar =>
      let latestMarketDate := lastBar.date
      if !optimized_rule1 df wd then (none, existing)
      else
        match existing with
        | some e =>
          match differentialAnalysis rs df wd e latestMarketDate now firstId with
          | none => (none, existing)
          | some (st, saved, summary) =>
            (some summary, if saved then some st else existing)
        | none =>
          match fullAnalysis rs df wd latestMarketDate now firstId with
          | none => (none, none)
          | some (st, summary) => (some summary, some st)

/-! ### Price cache store (`hwb_data_manager.py`)

The SQLite store is modelled as an explicit database value.
`_save_to_db` opens a transaction (`BEGIN`, two `DELETE`s) and then
inserts the cleaned frames with two pandas `to_sql` calls on the raw
sqlite3 connection.  Pandas runs each `to_sql` inside its own
`run_transaction`: on success it COMMITS the connection (publishing the
deletes and everything inserted so far), on failure it ROLLBACKs the
open transaction and re-raises.  The `conn.commit()` /
`conn.rollback()` frame of `_save_to_db` therefore does *not* make the
function atomic: a failure in the daily insert rolls everything back,
but a failure in the weekly insert happens after the daily `to_sql`
already committed the deletes and the daily rows.  The failure point is
injected with `FailPoint`; an insert that is skipped (empty frame, or
nothing left after `dropna`) cannot fail. -/

/-- A row as stored in `daily_prices` / fetched from the provider; the
OHLC cells are optional so the `dropna` safeguards are meaningful. -/
structure DbRow where
  date : ℕ
  opn : Option ℚ
  high : Option ℚ
  low : Option ℚ
  close : Option ℚ
  volume : ℚ
  sma200 : Option ℚ
  ema200 : Option ℚ
  deriving DecidableEq, Repr

/-- A `data_metadata` record. -/
structure MetaRow where
  symbol : String
  firstDate : Option ℕ
  lastDate : Option ℕ
  lastUpdated : ℕ
  dailyCount : ℕ
  weeklyCount : ℕ
  deriving DecidableEq, Repr

/-- The visible (committed) database. -/
structure Database where
  daily : List (String × DbRow)
  weekly : List (String × DbRow)
  meta : List MetaRow
  deriving DecidableEq, Repr

/-- Rows kept by the pre-insert safeguard
`df.dropna(subset=['open','high','low','close'], how='any')`. -/
def dropnaOHLC (rows : List DbRow) : List DbRow :=
  rows.filter (fun r =>
    r.opn.isSome && r.high.isSome && r.low.isSome && r.close.isSome)

/-- Which of the two `to_sql` inserts of `_save_to_db` raises, if any. -/
inductive FailPoint
  | ok
  | daily
  | weekly
  deriving DecidableEq, Repr

/-- `HWBDataManager._save_to_db`: `BEGIN`, delete the symbol's rows from
both stores, insert the cleaned daily frame (`to_sql`, which COMMITS on
success and rolls the open transaction back on failure), insert the
cleaned weekly frame likewise, `conn.commit()`; the `except` branch
runs `conn.rollback()` and re-raises.  Returns the committed store and
whether the call returned normally: a daily-insert failure leaves the
store unchanged, but a weekly-insert failure leaves the deletes and the
daily insert already committed. -/
def saveToDb (db : Database) (symbol : String)
    (dfDaily dfWeekly : List DbRow) (fail : FailPoint) : Database × Bool :=
  let keptD := db.daily.filter (fun r => r.1 ≠ symbol)
  let keptW := db.weekly.filter (fun r => r.1 ≠ symbol)
  let dailyRuns := !dfDaily.isEmpty && !(dropnaOHLC dfDaily).isEmpty
  let weeklyRuns := !dfWeekly.isEmpty && !(dropnaOHLC dfWeekly).isEmpty
  if fail = FailPoint.daily ∧ dailyRuns = true then
    (db, false)
  else
    let committedMid : Database :=
      if dailyRuns then
        { db with
          daily := keptD ++ (dropnaOHLC dfDaily).map (fun r => (symbol, r)),
          weekly := keptW }
      else db
    if fail = FailPoint.weekly ∧ weeklyRuns = true then
      (committedMid, false)
    else
      ({ db with
         daily := keptD ++
           (if dailyRuns then
             (dropnaOHLC dfDaily).map (fun r => (symbol, r))
           else []),
         weekly := keptW ++
           (if weeklyRuns then
             (dropnaOHLC dfWeekly).map (fun r => (symbol, r))
           else []) }, true)

/-- `HWBDataManager._update_metadata`: recompute the symbol's counts and
date range from the committed store and upsert its metadata record. -/
def updateMetadata (db : Database) (symbol : String) (now : ℕ) : Database :=
  let dailyRows := db.daily.filter (fun r => r.1 = symbol)
  let weeklyRows := db.weekly.filter (fun r => r.1 = symbol)
  let newMeta : MetaRow :=
    { symbol := symbol,
      firstDate := (dailyRows.map (fun r => r.2.date)).min?,
      lastDate := (dailyRows.map (fun r => r.2.date)).max?,
      lastUpdated := now,
      dailyCount := dailyRows.length,
      weeklyCount := weeklyRows.length }
  { db with
    meta := db.meta.filter (fun m => m.symbol ≠ symbol) ++ [newMeta] }

/-- The save step of `get_stock_data_with_cache` (lines 138–147): write
the recomputed frames, then — only when `_save_to_db` returned
normally — update the metadata.  An escaped exception is caught by the
surrounding `try/except`, which returns `None`; the store keeps
whatever `_save_to_db` had already committed. -/
def cacheSyncWrite (db : Database) (symbol : String)
    (dfDaily dfWeekly : List DbRow) (fail : FailPoint) (now : ℕ) :
    Option Unit × Database :=
  let r := saveToDb db symbol dfDaily dfWeekly fail
  if r.2 then (some (), updateMetadata r.1 symbol now) else (none, r.1)

/-! ### Concrete datasets used by the counterexamples and witnesses

Dates double as positions (bar `i` has date `i`), the single weekly bar
passes the trend filter for every date (`close 105`, `sma200 100`), and
the RS-rating oracle returns `none` (benchmark unavailable), which the
source tolerates by omitting `rs_rating`. -/

/-- RS-rating oracle with no benchmark data available. -/
def rsNone : ℕ → Option ℚ := fun _ => none

/-- A weekly frame whose single bar passes the trend filter at every
date (deviation `+5% ≥ 0`). -/
def wkFrame : WeeklyFrame := ⟨[⟨0, 105, some 100⟩], true⟩

/-- Daily series for the C1 scenario: a PRIMARY setup bar at index 1000
(the earliest index the full scan visits), a gap-completing bar at 1002,
and a second PRIMARY setup bar at 1025 that only exists in the extended
dataset.  All other bars carry null moving averages, so they can be
neither setups nor gap bars. -/
def c1Bar (i : ℕ) : DailyBar :=
  if i = 1000 then ⟨i, 100, 104, 100, 100, 100, some 100, some 100⟩
  else if i = 1002 then ⟨i, 150, 152, 106, 150, 100, some 100, some 100⟩
  else if i = 1025 then ⟨i, 102, 106, 102, 104, 100, some 100, some 104⟩
  else ⟨i, 103, 106, 102, 103, 100, none, none⟩

/-- The first 1005 bars of the C1 series (the initially revealed data). -/
def c1PrefixDaily : List DailyBar := (List.range 1005).map c1Bar

/-- The whole 1030-bar C1 series. -/
def c1FullDaily : List DailyBar := (List.range 1030).map c1Bar

/-- State the initial full scan persists for the C1 prefix: one active
setup at 1000 and one active gap formed at 1002. -/
def c1St1 : SymState :=
  ⟨1004, [⟨0, 1000, .primary, .active, some (1/20)⟩],
   [⟨1, 0, 1002, 1/52, 104, 106, .active, none⟩], []⟩

/-- Daily series for the C3 scenario: setup at 1000; gap G1 (1000/1002)
whose lower bound 104 is breached at bar 1003 (`low 101 < 101.92`); gap
G2 (1002/1004) that stays intact and breaks out at bar 1011
(`close 108 > 107 * 1.001`), which only the extended dataset contains. -/
def c3Bar (i : ℕ) : DailyBar :=
  if i = 1000 then ⟨i, 100, 104, 100, 100, 100, some 100, some 100⟩
  else if i = 1002 then ⟨i, 106, 107, 105, 106, 100, some 100, some 100⟩
  else if i = 1003 then ⟨i, 103, 105, 101, 103, 100, none, none⟩
  else if i = 1004 then ⟨i, 109, 110, 108, 109, 100, some 100, some 100⟩
  else if 1005 ≤ i ∧ i ≤ 1010 then ⟨i, 106, 109, 105, 106, 100, none, none⟩
  else if i = 1011 then ⟨i, 107, 110, 106, 108, 100, none, none⟩
  else if i = 1012 then ⟨i, 106, 109, 105, 106, 100, none, none⟩
  else ⟨i, 103, 106, 102, 103, 100, none, none⟩

/-- The first 1010 bars of the C3 series. -/
def c3PrefixDaily : List DailyBar := (List.range 1010).map c3Bar

/-- The whole 1013-bar C3 series. -/
def c3FullDaily : List DailyBar := (List.range 1013).map c3Bar

/-- State the initial full scan persists for the C3 prefix: the setup is
active, G1 is violated (as of bar 1003) and G2 is still active. -/
def c3St1 : SymState :=
  ⟨1009, [⟨0, 1000, .primary, .active, some (1/20)⟩],
   [⟨1, 0, 1002, 1/104, 104, 105, .violated, some 1003⟩,
    ⟨2, 0, 1004, 1/107, 107, 108, .active, none⟩], []⟩

/-- Daily series for the C2 scenario: resistance 110 (bars 6–7), the
gap's lower bound ×0.98 is breached at bar 13 (`low 100 < 101.92`), yet
the first close above `110 * 1.001` only comes at bar 20. -/
def c2Bar (i : ℕ) : DailyBar :=
  if i = 6 ∨ i = 7 then ⟨i, 105, 110, 104, 105, 100, none, none⟩
  else if i = 13 then ⟨i, 105, 106, 100, 105, 100, none, none⟩
  else if i = 20 then ⟨i, 105, 112, 104, 111, 100, none, none⟩
  else ⟨i, 105, 106, 104, 105, 100, none, none⟩

/-- The 26-bar C2 series. -/
def c2Daily : List DailyBar := (List.range 26).map c2Bar

/-- Prior state for the C2 scenario: an active setup at bar 5 owning an
active gap formed at bar 8 with lower bound 104, watermark at day 10. -/
def c2St : SymState :=
  ⟨10, [⟨0, 5, .primary, .active, none⟩],
   [⟨1, 0, 8, 1/50, 104, 106, .active, none⟩], []⟩

/-- Daily series for the C8 scenario: featureless bars (null moving
averages) so a differential run over the new bars changes nothing. -/
def c8Bar (i : ℕ) : DailyBar := ⟨i, 103, 106, 102, 103, 100, none, none⟩

/-- The 13-bar C8 series. -/
def c8Daily : List DailyBar := (List.range 13).map c8Bar

/-- Prior state for the C8 scenario: one active setup, watermark day 9
while the cache reaches day 12. -/
def c8St : SymState := ⟨9, [⟨0, 5, .primary, .active, none⟩], [], []⟩

/-- Daily series for the C4 fallback scenario: the setup bar (index 10)
has the dominant high 200; the ten bars before it top out at 100.  The
gap forms at index 11, so the resistance range is empty and the fallback
slice `[0, 11)` — which includes the setup bar — applies. -/
def c4Bar (i : ℕ) : DailyBar :=
  if i = 10 then ⟨i, 95, 200, 90, 95, 100, none, none⟩
  else if i = 11 then ⟨i, 96, 100, 95, 96, 100, none, none⟩
  else if i = 12 then ⟨i, 96, 151, 95, 150, 100, none, none⟩
  else if i = 13 then ⟨i, 96, 251, 95, 250, 100, none, none⟩
  else ⟨i, 95, 100, 90, 95, 100, none, none⟩

/-- The 14-bar C4 fallback series. -/
def c4Daily : List DailyBar := (List.range 14).map c4Bar

/-- Setup record for the C4 scenarios (formation right after it). -/
def c4Setup : Setup := ⟨0, 10, .primary, .active, none⟩

/-- Gap record for the C4 fallback scenario. -/
def c4Fvg : Fvg := ⟨1, 0, 11, 1/100, 50, 95, .active, none⟩

/-- Daily series for the claim's concrete breakout numbers: resistance 50
from bars 3–4 (between setup index 2 and formation index 5), a close of
50.04 at bar 6 and a close of 50.06 at bar 7. -/
def c4nBar (i : ℕ) : DailyBar :=
  if i = 3 ∨ i = 4 then ⟨i, 49, 50, 48, 49, 100, none, none⟩
  else if i = 5 then ⟨i, 49.8, 50, 49.5, 49.8, 100, none, none⟩
  else if i = 6 then ⟨i, 49.9, 50.1, 49, 50 + 4 / 100, 100, none, none⟩
  else if i = 7 then ⟨i, 49.9, 50.1, 49, 50 + 6 / 100, 100, none, none⟩
  else ⟨i, 48.5, 49, 48, 48.5, 100, none, none⟩

/-- The 8-bar numeric series (50.06 close present). -/
def c4nDaily : List DailyBar := (List.range 8).map c4nBar

/-- The numeric series truncated before the 50.06 close, so the last
close is 50.04. -/
def c4nShort : List DailyBar := (List.range 7).map c4nBar

/-- Setup record for the numeric scenario. -/
def c4nSetup : Setup := ⟨0, 2, .primary, .active, none⟩

/-- Gap record for the numeric scenario. -/
def c4nFvg : Fvg := ⟨1, 0, 5, 1/100, 45, 49.5, .active, none⟩

/-! ### Helper definitions used only in theorem statements -/

/-- The last weekly bar dated at or before `d` (the bar the trend filter
inspects). -/
def lastWeeklyAtOrBefore (w : WeeklyFrame) (d : ℕ) : Option WeeklyBar :=
  (w.rows.filter (fun b => b.date ≤ d)).getLast?

/-- A weekly frame whose single bar fails the trend filter
(`close 95 < sma200 100`, deviation −5%). -/
def wkFail : WeeklyFrame := ⟨[⟨0, 95, some 100⟩], true⟩

/-- The row slice `df.iloc[a:b]` as a list. -/
def ilocSlice (df : List DailyBar) (a b : ℕ) : List DailyBar :=
  (df.drop a).take (b - a)

/-- Daily series for the C10 witness: a PRIMARY-style setup bar at
index 0 and a gap window completing at index 4 (candle-1 high 100,
candle-3 low 106). -/
def c10Bar (i : ℕ) : DailyBar :=
  if i = 4 then ⟨i, 107, 108, 106, 107, 100, some 100, some 100⟩
  else ⟨i, 95, 100, 90, 95, 100, none, none⟩

/-- The 7-bar C10 series. -/
def c10Daily : List DailyBar := (List.range 7).map c10Bar

/-- Setup record at bar 0 for the C10 witness. -/
def c10Setup : Setup := ⟨0, 0, .primary, .active, none⟩

/-- Daily series for the C6 witness: bar 14 has `sma200 = ema200 = 100`,
`open = close = 100` and a 14-day ATR of 4, so both body ends lie inside
the rest zone `[99.6, 100.4]`. -/
def c6Bar (i : ℕ) : DailyBar :=
  if i = 14 then ⟨i, 100, 104, 100, 100, 100, some 100, some 100⟩
  else ⟨i, 96, 99, 95, 96, 100, none, none⟩

/-- The 15-bar C6 series. -/
def c6Daily : List DailyBar := (List.range 15).map c6Bar

/-- Bar 14 of the C6 series. -/
def c6Row : DailyBar := ⟨14, 100, 104, 100, 100, 100, some 100, some 100⟩

/-- A clean price row for the C7 scenario. -/
def c7Row : DbRow := ⟨0, some 1, some 2, some 1, some 2, 100, none, none⟩

/-- Prior store for the C7 scenario: one weekly row for symbol `A`. -/
def c7Db : Database := ⟨[], [("A", c7Row)], []⟩

/-- The spec's rest-zone upper bound. -/
def specZoneUpper (sma ema close a : ℚ) : ℚ :=
  max sma ema + max |sma - ema| (close * (a / close) * 0.5) * 0.2

/-- The spec's rest-zone lower bound. -/
def specZoneLower (sma ema close a : ℚ) : ℚ :=
  min sma ema - max |sma - ema| (close * (a / close) * 0.5) * 0.2

/-! ## Theorems -/


set_option maxRecDepth 4000000 in
/-- C1, counterexample.  On the C1 dataset the incremental path — the
full scan over the first 1005 bars followed by one differential run over
the remaining 25 bars — ends with the setup set `{bar 1000}`, while a
single full scan over all 1030 bars produces `{bar 1000, bar 1025}`: the
differential run skips the new-setup search because an active prior
setup exists, so the Setup sets (and hence the claimed equality of
Setup/GapZone/Signal sets) differ. -/
theorem C1_counterexample :
    ((fullAnalysis rsNone c1PrefixDaily wkFrame 1004 1004 0).map Prod.fst =
      some c1St1) ∧
    ((differentialAnalysis rsNone c1FullDaily wkFrame c1St1 1029 1029 100).map
      (fun r => r.1.setups.map Setup.date) = some [1000]) ∧
    ((fullAnalysis rsNone c1FullDaily wkFrame 1029 1029 0).map
      (fun r => r.1.setups.map Setup.date) = some [1000, 1025]) ∧
    (some [1000] ≠ some [1000, 1025]) :=
  of_decide_eq_true (by with_unfolding_all rfl)

set_option maxRecDepth 4000000 in
/-- C3, counterexample.  On the C3 dataset the initial full scan leaves
gap G1 `violated` and gap G2 `active`; the differential run then finds
G2's breakout and marks **every** gap owned by the setup `consumed`,
including the already-violated G1 — contradicting the claim that a
GapZone already `violated` is not among those consumed. -/
theorem C3_counterexample :
    ((fullAnalysis rsNone c3PrefixDaily wkFrame 1009 1009 0).map Prod.fst =
      some c3St1) ∧
    (c3St1.fvgs.map Fvg.status = [.violated, .active]) ∧
    ((differentialAnalysis rsNone c3FullDaily wkFrame c3St1 1012 1012 100).map
      (fun r => (r.1.fvgs.map Fvg.status, r.1.signals.length)) =
      some ([.consumed, .consumed], 1)) :=
  of_decide_eq_true (by with_unfolding_all rfl)

set_option maxRecDepth 100000 in
/-- C2.  On the C2 dataset, bar 13 breaches the gap's lower bound × 0.98
(`low 100 < 104 * 0.98`) and no bar before bar 20 satisfies the breakout
condition against the pair's resistance 110 — so by the claim the gap
must end `violated` and no Signal may be emitted.  The differential path
(`_check_breakout_in_range`) has no violation check at all, finds the
close 111 > 110 * 1.001 at bar 20, emits the Signal and marks the gap
`consumed`; the `'violated'` branch of `_differential_analysis` is
unreachable. -/
theorem C2_differential_skips_violation :
    (resistanceLevel c2Daily 5 8 = some 110) ∧
    ((c2Daily.get? 13).map DailyBar.low = some 100) ∧
    ((100 : ℚ) < 104 * 0.98) ∧
    (((c2Daily.take 20).drop 8).all
      (fun b => decide (b.close ≤ 110 * (1 + BREAKOUT_THRESHOLD))) = true) ∧
    ((differentialAnalysis rsNone c2Daily wkFrame c2St 25 25 50).map
      (fun r => (r.1.fvgs.map Fvg.status, r.1.fvgs.map Fvg.violatedDate,
        r.1.signals.map Signal.breakoutDate)) =
      some ([.consumed], [none], [20])) :=
  of_decide_eq_true (by with_unfolding_all rfl)

set_option maxRecDepth 100000 in
/-- C8, counterexample.  On the C8 dataset the cache's latest date is 12
and the stored watermark is 9, so the differential run proceeds; nothing
changes, the state is not persisted, and `last_updated` stays 9 — the
watermark is *not* advanced to the cache's latest date on a no-change
run. -/
theorem C8_counterexample :
    ((c8Daily.getLast?).map DailyBar.date = some 12) ∧
    (c8St.lastUpdated = 9) ∧
    ((differentialAnalysis rsNone c8Daily wkFrame c8St 12 12 10).map
      (fun r => (r.1, r.2.1)) = some (c8St, false)) ∧
    ((9 : ℕ) ≠ 12) :=
  of_decide_eq_true (by with_unfolding_all rfl)

set_option maxRecDepth 100000 in
/-- C4, counterexample.  On the C4 dataset the gap forms on the bar right
after the setup, so the fallback resistance range applies.  The claim
says the fallback is the last 10 bars *before* the setup, whose maximum
high is 100 — under that reading bar 12 (`close 150 > 100 * 1.001`)
would trigger the breakout with resistance 100.  The code's fallback
slice `[setup_idx - 10, setup_idx + 1)` *includes the setup bar*
(high 200), so the breakout only triggers at bar 13 with resistance
price 200. -/
theorem C4_counterexample :
    (optimized_breakout_detection_all_periods c4Daily c4Setup c4Fvg =
      some (.breakout ⟨13, 250, 200, 25, none⟩)) ∧
    (seriesMax ((c4Daily.take 10).map DailyBar.high) = some 100) ∧
    ((c4Daily.get? 12).map
      (fun b => decide (b.close > 100 * (1 + BREAKOUT_THRESHOLD))) =
      some true) ∧
    ((200 : ℚ) ≠ 100) :=
  of_decide_eq_true (by with_unfolding_all rfl)


/-- C9.  When the weekly trend filter (Rule 1) fails, the per-symbol
driver returns `None` without touching the persisted state: prior
Signals and GapZones contribute nothing to that day's summary. -/
theorem C9_trend_gate_preserves_state (rs : ℕ → Option ℚ)
    (dfDaily : List DailyBar) (w : WeeklyFrame) (existing : Option SymState)
    (now firstId : ℕ)
    (h : optimized_rule1 (dedupKeepLastD dfDaily)
      { w with rows := dedupKeepLastW w.rows } = false) :
    analyzeAndSaveSymbol rs dfDaily w existing now firstId = (none, existing) := by
  unfold analyzeAndSaveSymbol
  split
  · rfl
  · cases hlast : (dedupKeepLastD dfDaily).getLast? with
    | none => simp only [hlast]
    | some lastBar => simp only [hlast, h, Bool.not_false, if_true]

set_option maxRecDepth 100000 in
/-- C9 witness: on the C8 series with a failing weekly frame the driver
returns `None` and keeps the stored state. -/
theorem C9_witness :
    optimized_rule1 (dedupKeepLastD c8Daily)
      { wkFail with rows := dedupKeepLastW wkFail.rows } = false ∧
    analyzeAndSaveSymbol rsNone c8Daily wkFail (some c2St) 12 0 =
      (none, some c2St) :=
  ⟨of_decide_eq_true (by with_unfolding_all rfl),
   C9_trend_gate_preserves_state rsNone c8Daily wkFail (some c2St) 12 0
     (of_decide_eq_true (by with_unfolding_all rfl))⟩

/-- C1 (amended).  Seeded from an empty prior state, the driver
dispatches to the full scan, so incremental and full processing agree;
the general prefix-plus-differential equivalence is refuted by
`C1_counterexample`. -/
theorem C1_empty_seed_equivalence (rs : ℕ → Option ℚ)
    (dfDaily : List DailyBar) (w : WeeklyFrame) (now firstId : ℕ)
    (lastBar : DailyBar)
    (h1 : dfDaily.isEmpty = false) (h2 : w.rows.isEmpty = false)
    (h3 : (dedupKeepLastD dfDaily).getLast? = some lastBar)
    (h4 : optimized_rule1 (dedupKeepLastD dfDaily)
      { w with rows := dedupKeepLastW w.rows } = true) :
    analyzeAndSaveSymbol rs dfDaily w none now firstId =
      (match fullAnalysis rs (dedupKeepLastD dfDaily)
        { w with rows := dedupKeepLastW w.rows } lastBar.date now firstId with
      | none => (none, none)
      | some (st, summary) => (some summary, some st)) := by
  unfold analyzeAndSaveSymbol
  simp only [h1, h2, Bool.or_self, Bool.false_eq_true, if_false, h3, h4,
    Bool.not_true, ite_false]

set_option maxRecDepth 100000 in
/-- C1 witness: a concrete empty-seeded run equals the full scan. -/
theorem C1_empty_seed_equivalence_witness :
    c8Daily.isEmpty = false ∧
    (dedupKeepLastD c8Daily).getLast? = some (c8Bar 12) ∧
    analyzeAndSaveSymbol rsNone c8Daily wkFrame none 12 0 =
      (match fullAnalysis rsNone (dedupKeepLastD c8Daily)
        { wkFrame with rows := dedupKeepLastW wkFrame.rows } (c8Bar 12).date 12 0 with
      | none => (none, none)
      | some (st, summary) => (some summary, some st)) :=
  ⟨rfl, of_decide_eq_true (by with_unfolding_all rfl),
   C1_empty_seed_equivalence rsNone c8Daily wkFrame 12 0 (c8Bar 12) rfl rfl
     (of_decide_eq_true (by with_unfolding_all rfl))
     (of_decide_eq_true (by with_unfolding_all rfl))⟩

/-- C8 (amended).  A differential run persists the state — and sets the
watermark, to the wall-clock date `now` — exactly when something
changed; a no-change run leaves the state, including `last_updated`,
exactly as stored. -/
theorem C8_persistence_watermark (rs : ℕ → Option ℚ) (df : List DailyBar)
    (w : WeeklyFrame) (existing : SymState) (latest now firstId : ℕ)
    (r : SymState × Bool × List SummaryItem)
    (hnew : existing.lastUpdated < latest)
    (hrun : differentialAnalysis rs df w existing latest now firstId = some r) :
    (r.2.1 = false → r.1 = existing) ∧
    (r.2.1 = true → r.1.lastUpdated = now) := by
  unfold differentialAnalysis at hrun
  rw [if_neg (by omega)] at hrun
  dsimp only [] at hrun
  split at hrun
  · exact absurd hrun (by simp)
  · split at hrun
    · exact absurd hrun (by simp)
    · simp only [Option.some.injEq] at hrun
      subst hrun
      dsimp only
      constructor
      · intro hfalse
        rw [hfalse]
        simp
      · intro htrue
        rw [htrue]
        simp

set_option maxRecDepth 100000 in
/-- C8 witness: a no-change run returns the stored state unsaved. -/
theorem C8_persistence_watermark_witness :
    c8St.lastUpdated < 12 ∧
    differentialAnalysis rsNone c8Daily wkFrame c8St 12 12 10 =
      some (c8St, false, []) ∧
    ((c8St, false, ([] : List SummaryItem)).2.1 = false →
      (c8St, false, ([] : List SummaryItem)).1 = c8St) :=
  ⟨by decide, of_decide_eq_true (by with_unfolding_all rfl),
   (C8_persistence_watermark rsNone c8Daily wkFrame c8St 12 12 10
     (c8St, false, []) (by decide)
     (of_decide_eq_true (by with_unfolding_all rfl))).1⟩

/-- The trend filter unpacked: true iff the sma column is present and
the last weekly bar at or before the date has a non-null, nonzero
`sma200` with nonnegative deviation. -/
theorem C5_main_iff (w : WeeklyFrame) (d : ℕ) :
    check_weekly_trend_at_date w d = true ↔
      (w.smaColPresent = true ∧ ∃ b s, lastWeeklyAtOrBefore w d = some b ∧
        b.sma200 = some s ∧ s ≠ 0 ∧
        (b.close - s) / s ≥ WEEKLY_TREND_THRESHOLD) := by
  unfold check_weekly_trend_at_date lastWeeklyAtOrBefore
  split
  next hempty =>
    rw [List.isEmpty_iff] at hempty
    simp [hempty]
  next hempty =>
    dsimp only
    split
    next hhist =>
      rw [List.isEmpty_iff] at hhist
      simp [hhist]
    next hhist =>
      split
      next hcol =>
        simp only [Bool.or_eq_true, Bool.not_eq_true'] at hcol
        constructor
        · intro hf; cases hf
        · rintro ⟨hc, b, s, hb, hs, -⟩
          rcases hcol with h0 | h0
          · rw [h0] at hc; cases hc
          · have hmem : b ∈ w.rows.filter (fun x => decide (x.date ≤ d)) :=
              List.mem_of_getLast?_eq_some hb
            have := List.all_eq_true.mp h0 b hmem
            simp [hs] at this
      next hcol =>
        simp only [Bool.or_eq_true, Bool.not_eq_true', not_or] at hcol
        obtain ⟨hc, -⟩ := hcol
        split
        next hl => simp [hl]
        next latest hl =>
          split
          next hs => simp [hl, hs]
          next s hs =>
            split
            next h0 =>
              subst h0
              simp only [hl]
              constructor
              · intro hf; cases hf
              · rintro ⟨-, b, s2, hb, hsb, hne, -⟩
                injection hb with hb2
                subst hb2
                rw [hs] at hsb
                injection hsb with hsb2
                subst hsb2
                exact absurd rfl hne
            next h0 =>
              simp only [hl, decide_eq_true_eq, ge_iff_le]
              constructor
              · intro hge
                refine ⟨by simpa using hc, latest, s, rfl, hs, h0, hge⟩
              · rintro ⟨-, b, s2, hb, hsb, -, hge⟩
                injection hb with hb2
                subst hb2
                rw [hs] at hsb
                injection hsb with hsb2
                subst hsb2
                exact hge


/-- C5.  `_check_weekly_trend_at_date` returns true iff the most recent
weekly bar at or before the date exists, carries a non-null nonzero
`sma200`, and closes at or above it; empty frames, missing columns and
all-null columns yield false. -/
theorem C5_trend_filter :
    (∀ (w : WeeklyFrame) (d : ℕ),
      check_weekly_trend_at_date w d = true ↔
        (w.smaColPresent = true ∧ ∃ b s, lastWeeklyAtOrBefore w d = some b ∧
          b.sma200 = some s ∧ s ≠ 0 ∧
          (b.close - s) / s ≥ WEEKLY_TREND_THRESHOLD)) ∧
    (∀ (col : Bool) (d : ℕ), check_weekly_trend_at_date ⟨[], col⟩ d = false) ∧
    (∀ (w : WeeklyFrame) (d : ℕ), w.smaColPresent = false →
      check_weekly_trend_at_date w d = false) ∧
    (∀ (w : WeeklyFrame) (d : ℕ), (∀ b ∈ w.rows, b.sma200 = none) →
      check_weekly_trend_at_date w d = false) ∧
    check_weekly_trend_at_date wkFrame 0 = true ∧
    check_weekly_trend_at_date wkFail 0 = false := by
  refine ⟨C5_main_iff, fun col d => rfl, ?_, ?_,
    of_decide_eq_true (by with_unfolding_all rfl),
    of_decide_eq_true (by with_unfolding_all rfl)⟩
  · intro w d hcol
    cases h : check_weekly_trend_at_date w d with
    | false => rfl
    | true =>
      obtain ⟨hc, -⟩ := (C5_main_iff w d).mp h
      simp [hcol] at hc
  · intro w d hnull
    cases h : check_weekly_trend_at_date w d with
    | false => rfl
    | true =>
      obtain ⟨-, b, s, hb, hsb, -⟩ := (C5_main_iff w d).mp h
      have hbmem : b ∈ w.rows :=
        (List.mem_filter.mp (List.mem_of_getLast?_eq_some hb)).1
      rw [hnull b hbmem] at hsb
      cases hsb

set_option maxRecDepth 100000 in
/-- C5 witness: the passing and failing one-bar weekly frames. -/
theorem C5_trend_filter_witness :
    wkFrame.smaColPresent = true ∧
    ∃ b s, lastWeeklyAtOrBefore wkFrame 0 = some b ∧
      b.sma200 = some s ∧ s ≠ 0 ∧
      (b.close - s) / s ≥ WEEKLY_TREND_THRESHOLD :=
  (C5_trend_filter.1 wkFrame 0).mp (of_decide_eq_true (by with_unfolding_all rfl))


/-- Dates at smaller positions are smaller in a strictly sorted frame. -/
theorem date_lt_of_sorted {df : List DailyBar}
    (hs : List.Pairwise (fun a b => a.date < b.date) df) {i j : ℕ}
    {bi bj : DailyBar} (hij : i < j)
    (hi : df.get? i = some bi) (hj : df.get? j = some bj) :
    bi.date < bj.date := by
  rw [List.get?_eq_some] at hi hj
  obtain ⟨hi1, rfl⟩ := hi
  obtain ⟨hj1, rfl⟩ := hj
  exact List.pairwise_iff_get.mp hs ⟨i, hi1⟩ ⟨j, hj1⟩ hij

/-- Unpacking membership in `mkFvgs`. -/
theorem mem_mkFvgs {setup : Setup} {firstId : ℕ} {cores : List FvgCore}
    {f : Fvg} (hf : f ∈ mkFvgs setup firstId cores) :
    ∃ core ∈ cores, f.setupId = setup.id ∧
      f.formationDate = core.formationDate ∧
      f.gapPercentage = core.gapPercentage ∧
      f.lowerBound = core.lowerBound ∧ f.upperBound = core.upperBound ∧
      f.status = Status.active := by
  unfold mkFvgs at hf
  obtain ⟨p, hp, rfl⟩ := List.mem_map.mp hf
  exact ⟨p.2, List.get?_mem (List.mem_enum_iff_get?.mp hp), rfl, rfl, rfl,
    rfl, rfl, rfl⟩

/-- Unpacking a successful FVG window test. -/
theorem fvgAtIndex_eq_some {df : List DailyBar} {i : ℕ} {core : FvgCore}
    (h : fvgAtIndex df i = some core) :
    ∃ c1 c3, df.get? (i - 2) = some c1 ∧ df.get? i = some c3 ∧
      core.formationDate = c3.date ∧ core.lowerBound = c1.high ∧
      core.upperBound = c3.low ∧ c1.high < c3.low ∧
      FVG_MIN_GAP_PERCENTAGE ≤ (c3.low - c1.high) / c1.high ∧
      check_fvg_ma_proximity c3 c1 = true := by
  unfold fvgAtIndex at h
  split at h
  next c1 c3 h1 h3 =>
    dsimp only at h
    split_ifs at h with hgt hpct hprox
    all_goals try cases h
    all_goals
      exact ⟨c1, c3, h1, h3, rfl, rfl, rfl, not_le.mp hgt, not_lt.mp hpct,
        by simpa using hprox⟩
  next => cases h

/-- Unpacking membership in the full-scan FVG detection. -/
theorem mem_fvg_detection {df : List DailyBar} {setup : Setup} {firstId : ℕ}
    {f : Fvg} (hf : f ∈ optimized_fvg_detection df setup firstId) :
    ∃ setupIdx, idxOfDate df setup.date = some setupIdx ∧
      ∃ i core, setupIdx + 2 ≤ i ∧
        i < min (setupIdx + FVG_MAX_SEARCH_DAYS) (df.length - 1) ∧
        fvgAtIndex df i = some core ∧ f.setupId = setup.id ∧
        f.formationDate = core.formationDate ∧
        f.gapPercentage = core.gapPercentage ∧
        f.lowerBound = core.lowerBound ∧ f.upperBound = core.upperBound ∧
        f.status = Status.active := by
  unfold optimized_fvg_detection at hf
  split at hf
  next => cases hf
  next setupIdx hidx =>
    obtain ⟨core, hcore, hsid, hdate, hpct, hlo, hhi, hst⟩ := mem_mkFvgs hf
    obtain ⟨i, hi, hat⟩ := List.mem_filterMap.mp hcore
    rw [List.mem_range'_1] at hi
    exact ⟨setupIdx, hidx, i, core, hi.1, by omega, hat, hsid, hdate, hpct,
      hlo, hhi, hst⟩

/-- C10.  FVG detection scans third-candle indexes strictly below
`len - 1`, so on a date-sorted frame a GapZone's formation date is
strictly before the last cached bar's date. -/
theorem C10_gap_never_on_last_bar (df : List DailyBar) (setup : Setup)
    (firstId : ℕ)
    (hsorted : List.Pairwise (fun a b => a.date < b.date) df)
    (f : Fvg) (hf : f ∈ optimized_fvg_detection df setup firstId)
    (lastBar : DailyBar) (hlast : df.getLast? = some lastBar) :
    f.formationDate < lastBar.date := by
  obtain ⟨setupIdx, -, i, core, -, hilt, hat, -, hdate, -⟩ :=
    mem_fvg_detection hf
  obtain ⟨c1, c3, -, h3, hcd, -⟩ := fvgAtIndex_eq_some hat
  rw [List.getLast?_eq_get?] at hlast
  have hlen : 0 < df.length := by
    cases df with
    | nil => cases hlast
    | cons a l => simp
  have hlt : i < df.length - 1 := by omega
  rw [hdate, hcd]
  exact date_lt_of_sorted hsorted (by omega) h3 hlast


/-- Dates determine positions in a strictly sorted frame. -/
theorem date_inj_of_sorted {df : List DailyBar}
    (hs : List.Pairwise (fun a b => a.date < b.date) df) {i j : ℕ}
    {bi bj : DailyBar} (hi : df.get? i = some bi) (hj : df.get? j = some bj)
    (hd : bi.date = bj.date) : i = j := by
  rcases Nat.lt_trichotomy i j with h | h | h
  · exact absurd hd (Nat.ne_of_lt (date_lt_of_sorted hs h hi hj))
  · exact h
  · exact absurd hd.symm (Nat.ne_of_lt (date_lt_of_sorted hs h hj hi))

/-- The date recorded by the Rule-2 loop body is the scanned bar's date. -/
theorem rule2Classify_date {df : List DailyBar} {w : WeeklyFrame} {i : ℕ}
    {c : SetupCore} (h : rule2Classify df w i = some c) :
    ∃ row, df.get? i = some row ∧ c.date = row.date := by
  unfold rule2Classify at h
  split at h
  next => cases h
  next row hrow =>
    refine ⟨row, hrow, ?_⟩
    by_cases htr : (!check_weekly_trend_at_date w row.date) = true
    · rw [if_pos htr] at h; cases h
    · rw [if_neg htr] at h
      split at h
      next sma ema hsma hema =>
        dsimp only at h
        split_ifs at h
        all_goals try cases h
        all_goals rfl
      next => cases h

/-- Unpacking membership in the Rule-2 output. -/
theorem mem_rule2_setups {df : List DailyBar} {w : WeeklyFrame}
    {fullScan : Bool} {scanStartDate : Option ℕ} {firstId : ℕ} {s : Setup}
    (hs : s ∈ optimized_rule2_setups df w fullScan scanStartDate firstId) :
    rule2ScanStart df fullScan scanStartDate < df.length ∧
    ∃ i, rule2ScanStart df fullScan scanStartDate ≤ i ∧
      rule2Classify df w i = some ⟨s.date, s.type, s.weeklyDeviation⟩ ∧
      s.status = Status.active := by
  unfold optimized_rule2_setups at hs
  dsimp only at hs
  split at hs
  next => cases hs
  next hlt =>
    obtain ⟨p, hp, rfl⟩ := List.mem_map.mp hs
    have hc : _ ∈ (List.range' (rule2ScanStart df fullScan scanStartDate)
        (df.length - rule2ScanStart df fullScan scanStartDate)).filterMap
        (rule2Classify df w) := List.get?_mem (List.mem_enum_iff_get?.mp hp)
    obtain ⟨i, hi, hcl⟩ := List.mem_filterMap.mp hc
    rw [List.mem_range'_1] at hi
    exact ⟨by omega, i, hi.1, hcl, rfl⟩

/-- Every in-range index the loop body accepts yields a setup. -/
theorem rule2_setups_complete {df : List DailyBar} {w : WeeklyFrame}
    {fullScan : Bool} {scanStartDate : Option ℕ} {firstId : ℕ}
    {i : ℕ} {c : SetupCore}
    (hge : rule2ScanStart df fullScan scanStartDate ≤ i)
    (hcl : rule2Classify df w i = some c) :
    ∃ s ∈ optimized_rule2_setups df w fullScan scanStartDate firstId,
      s.date = c.date ∧ s.type = c.type := by
  obtain ⟨row, hrow, -⟩ := rule2Classify_date hcl
  have hilen : i < df.length := by
    rcases List.get?_eq_some.mp hrow with ⟨h, -⟩
    exact h
  have hmemr : i ∈ List.range' (rule2ScanStart df fullScan scanStartDate)
      (df.length - rule2ScanStart df fullScan scanStartDate) :=
    List.mem_range'_1.mpr ⟨hge, by omega⟩
  have hcm : c ∈ (List.range' (rule2ScanStart df fullScan scanStartDate)
      (df.length - rule2ScanStart df fullScan scanStartDate)).filterMap
      (rule2Classify df w) :=
    List.mem_filterMap.mpr ⟨i, hmemr, hcl⟩
  obtain ⟨k, hk⟩ := List.get?_of_mem hcm
  unfold optimized_rule2_setups
  dsimp only
  rw [if_neg (by omega)]
  exact ⟨_, List.mem_map.mpr ⟨(k, c), List.mem_enum_iff_get?.mpr hk, rfl⟩,
    rfl, rfl⟩


/-- The code's conditional zone width (ATR branch only when positive)
equals the spec's unconditional `max` formula whenever `close ≠ 0`. -/
theorem zoneWidth_code_eq_spec {sma ema close a : ℚ} (hc : close ≠ 0) :
    (if a > 0 then max |sma - ema| (close * (a / close) * 0.5)
     else |sma - ema|) =
      max |sma - ema| (close * (a / close) * 0.5) := by
  split
  · rfl
  next ha =>
    have hca : close * (a / close) = a := by
      rw [mul_comm, div_mul_cancel₀ _ hc]
    rw [hca]
    have ha2 : a * 0.5 ≤ 0 := by nlinarith [not_lt.mp ha]
    exact (max_eq_left (ha2.trans (abs_nonneg (sma - ema)))).symm

/-- The Rule-2 loop body, rewritten with the spec's zone formula, for a
bar that passes the trend filter and has both moving averages and a
defined ATR. -/
theorem rule2Classify_spec {df : List DailyBar} {w : WeeklyFrame} {i : ℕ}
    {row : DailyBar} {sma ema a : ℚ}
    (hrow : df.get? i = some row)
    (htrend : check_weekly_trend_at_date w row.date = true)
    (hsma : row.sma200 = some sma) (hema : row.ema200 = some ema)
    (hatr : atr14 df i = some a) (hclose : row.close ≠ 0) :
    rule2Classify df w i =
      (if min sma ema - max |sma - ema| (row.close * (a / row.close) * 0.5) * 0.2 ≤ row.opn ∧
          row.opn ≤ max sma ema + max |sma - ema| (row.close * (a / row.close) * 0.5) * 0.2 ∧
          min sma ema - max |sma - ema| (row.close * (a / row.close) * 0.5) * 0.2 ≤ row.close ∧
          row.close ≤ max sma ema + max |sma - ema| (row.close * (a / row.close) * 0.5) * 0.2 then
        some ⟨row.date, SetupType.primary, getWeeklyDeviationAtDate w row.date⟩
      else if (min sma ema - max |sma - ema| (row.close * (a / row.close) * 0.5) * 0.2 ≤ row.opn ∧
          row.opn ≤ max sma ema + max |sma - ema| (row.close * (a / row.close) * 0.5) * 0.2) ∨
          (min sma ema - max |sma - ema| (row.close * (a / row.close) * 0.5) * 0.2 ≤ row.close ∧
          row.close ≤ max sma ema + max |sma - ema| (row.close * (a / row.close) * 0.5) * 0.2) then
        if min sma ema - max |sma - ema| (row.close * (a / row.close) * 0.5) * 0.2 ≤ (row.opn + row.close) / 2 ∧
            (row.opn + row.close) / 2 ≤ max sma ema + max |sma - ema| (row.close * (a / row.close) * 0.5) * 0.2 then
          some ⟨row.date, SetupType.secondary, getWeeklyDeviationAtDate w row.date⟩
        else none
      else none) := by
  unfold rule2Classify
  rw [hrow]
  try dsimp only
  rw [htrend]
  try dsimp only [Bool.not_true]
  rw [if_neg (by simp)]
  rw [hsma, hema]
  try dsimp only
  rw [hatr]
  try dsimp only
  rw [zoneWidth_code_eq_spec hclose]


/-- C6.  For an in-range bar passing the trend filter with non-null
moving averages, a defined ATR and a nonzero close: a PRIMARY setup at
that date exists iff both body ends lie inside the rest zone; a
SECONDARY setup exists iff exactly one body end lies inside and the body
midpoint lies inside; otherwise no setup is emitted at that date. -/
theorem C6_setup_classification (df : List DailyBar) (w : WeeklyFrame)
    (fullScan : Bool) (scanStartDate : Option ℕ) (firstId : ℕ)
    (hsorted : List.Pairwise (fun x y => x.date < y.date) df)
    (i : ℕ) (row : DailyBar) (hrow : df.get? i = some row)
    (hscan : rule2ScanStart df fullScan scanStartDate ≤ i)
    (htrend : check_weekly_trend_at_date w row.date = true)
    (sma ema a : ℚ) (hsma : row.sma200 = some sma)
    (hema : row.ema200 = some ema)
    (hatr : atr14 df i = some a) (hclose : row.close ≠ 0) :
    ((∃ s ∈ optimized_rule2_setups df w fullScan scanStartDate firstId,
        s.date = row.date ∧ s.type = SetupType.primary) ↔
      ((specZoneLower sma ema row.close a ≤ row.opn ∧
        row.opn ≤ specZoneUpper sma ema row.close a) ∧
       (specZoneLower sma ema row.close a ≤ row.close ∧
        row.close ≤ specZoneUpper sma ema row.close a))) ∧
    ((∃ s ∈ optimized_rule2_setups df w fullScan scanStartDate firstId,
        s.date = row.date ∧ s.type = SetupType.secondary) ↔
      (((specZoneLower sma ema row.close a ≤ row.opn ∧
         row.opn ≤ specZoneUpper sma ema row.close a) ∨
        (specZoneLower sma ema row.close a ≤ row.close ∧
         row.close ≤ specZoneUpper sma ema row.close a)) ∧
       ¬((specZoneLower sma ema row.close a ≤ row.opn ∧
          row.opn ≤ specZoneUpper sma ema row.close a) ∧
         (specZoneLower sma ema row.close a ≤ row.close ∧
          row.close ≤ specZoneUpper sma ema row.close a)) ∧
       (specZoneLower sma ema row.close a ≤ (row.opn + row.close) / 2 ∧
        (row.opn + row.close) / 2 ≤ specZoneUpper sma ema row.close a))) ∧
    (¬((specZoneLower sma ema row.close a ≤ row.opn ∧
        row.opn ≤ specZoneUpper sma ema row.close a) ∧
       (specZoneLower sma ema row.close a ≤ row.close ∧
        row.close ≤ specZoneUpper sma ema row.close a)) →
     ¬(((specZoneLower sma ema row.close a ≤ row.opn ∧
         row.opn ≤ specZoneUpper sma ema row.close a) ∨
        (specZoneLower sma ema row.close a ≤ row.close ∧
         row.close ≤ specZoneUpper sma ema row.close a)) ∧
       (specZoneLower sma ema row.close a ≤ (row.opn + row.close) / 2 ∧
        (row.opn + row.close) / 2 ≤ specZoneUpper sma ema row.close a)) →
     ∀ s ∈ optimized_rule2_setups df w fullScan scanStartDate firstId,
       s.date ≠ row.date) := by
  have hspec := rule2Classify_spec hrow htrend hsma hema hatr hclose
  have hex : ∀ t : SetupType,
      (∃ s ∈ optimized_rule2_setups df w fullScan scanStartDate firstId,
        s.date = row.date ∧ s.type = t) ↔
      ∃ dev, rule2Classify df w i = some ⟨row.date, t, dev⟩ := by
    intro t
    constructor
    · rintro ⟨s, hsmem, hdate, htype⟩
      obtain ⟨-, i2, hge2, hcl2, -⟩ := mem_rule2_setups hsmem
      obtain ⟨row2, hrow2, hd2⟩ := rule2Classify_date hcl2
      have hii : i2 = i :=
        date_inj_of_sorted hsorted hrow2 hrow (by rw [← hd2, hdate])
      subst hii
      exact ⟨s.weeklyDeviation, by rw [← hdate, ← htype]; exact hcl2⟩
    · rintro ⟨dev, hcl⟩
      obtain ⟨s, hsmem, hd, ht⟩ := rule2_setups_complete hscan hcl
      exact ⟨s, hsmem, by rw [hd], by rw [ht]⟩
  unfold specZoneLower specZoneUpper
  refine ⟨?_, ?_, ?_⟩
  · rw [hex SetupType.primary, hspec]
    split_ifs with hP hAB hM
    · constructor
      · intro _
        exact ⟨⟨hP.1, hP.2.1⟩, hP.2.2.1, hP.2.2.2⟩
      · intro _
        exact ⟨getWeeklyDeviationAtDate w row.date, rfl⟩
    · exact iff_of_false (by rintro ⟨dev, h⟩; simp at h)
        (fun hc => hP ⟨hc.1.1, hc.1.2, hc.2.1, hc.2.2⟩)
    · exact iff_of_false (by rintro ⟨dev, h⟩; cases h)
        (fun hc => hP ⟨hc.1.1, hc.1.2, hc.2.1, hc.2.2⟩)
    · exact iff_of_false (by rintro ⟨dev, h⟩; cases h)
        (fun hc => hP ⟨hc.1.1, hc.1.2, hc.2.1, hc.2.2⟩)
  · rw [hex SetupType.secondary, hspec]
    split_ifs with hP hAB hM
    · exact iff_of_false (by rintro ⟨dev, h⟩; simp at h)
        (fun hc => hc.2.1 ⟨⟨hP.1, hP.2.1⟩, hP.2.2.1, hP.2.2.2⟩)
    · constructor
      · intro _
        exact ⟨hAB, fun hc => hP ⟨hc.1.1, hc.1.2, hc.2.1, hc.2.2⟩, hM⟩
      · intro _
        exact ⟨getWeeklyDeviationAtDate w row.date, rfl⟩
    · exact iff_of_false (by rintro ⟨dev, h⟩; cases h)
        (fun hc => hM hc.2.2)
    · exact iff_of_false (by rintro ⟨dev, h⟩; cases h)
        (fun hc => hAB hc.1)
  · intro hnP hnS s hsmem hdate
    rcases hty : s.type with - | -
    · have hone : ∃ dev, rule2Classify df w i =
          some ⟨row.date, SetupType.primary, dev⟩ :=
        (hex SetupType.primary).mp ⟨s, hsmem, hdate, hty⟩
      rw [hspec] at hone
      obtain ⟨dev, hcl⟩ := hone
      split_ifs at hcl with h1 h2 h3
      all_goals first
        | exact hnP ⟨⟨h1.1, h1.2.1⟩, h1.2.2.1, h1.2.2.2⟩
        | simp at hcl
    · have hone : ∃ dev, rule2Classify df w i =
          some ⟨row.date, SetupType.secondary, dev⟩ :=
        (hex SetupType.secondary).mp ⟨s, hsmem, hdate, hty⟩
      rw [hspec] at hone
      obtain ⟨dev, hcl⟩ := hone
      split_ifs at hcl with h1 h2 h3
      all_goals first
        | exact hnS ⟨h2, h3⟩
        | simp at hcl


/-- Folding from a `some` seed computes an ordinary `max` fold. -/
theorem seriesMax_from_some (l : List ℚ) (m0 : ℚ) :
    l.foldl (fun acc x =>
      match acc with
      | none => some x
      | some m => some (max m x)) (some m0) = some (l.foldl max m0) := by
  induction l generalizing m0 with
  | nil => rfl
  | cons a l ih => exact ih (max m0 a)

/-- The seed is below the `max` fold. -/
theorem le_foldl_max (l : List ℚ) (m0 : ℚ) : m0 ≤ l.foldl max m0 := by
  induction l generalizing m0 with
  | nil => exact le_refl m0
  | cons a l ih => exact (le_max_left m0 a).trans (ih (max m0 a))

/-- Every element is below the `max` fold. -/
theorem mem_le_foldl_max {l : List ℚ} {x : ℚ} (hx : x ∈ l) (m0 : ℚ) :
    x ≤ l.foldl max m0 := by
  induction l generalizing m0 with
  | nil => cases hx
  | cons a l ih =>
    rcases List.mem_cons.mp hx with rfl | hx2
    · exact (le_max_right m0 x).trans (le_foldl_max l (max m0 x))
    · exact ih hx2 (max m0 a)

/-- The `max` fold is the seed or an element. -/
theorem foldl_max_mem (l : List ℚ) (m0 : ℚ) :
    l.foldl max m0 = m0 ∨ l.foldl max m0 ∈ l := by
  induction l generalizing m0 with
  | nil => exact Or.inl rfl
  | cons a l ih =>
    rw [List.foldl_cons]
    rcases ih (max m0 a) with h | h
    · rcases max_cases m0 a with ⟨he, -⟩ | ⟨he, -⟩
      · exact Or.inl (by rw [h, he])
      · exact Or.inr (by rw [h, he]; exact List.mem_cons_self a l)
    · exact Or.inr (List.mem_cons_of_mem a h)

/-- A `seriesMax` value is an element of the series. -/
theorem seriesMax_mem {l : List ℚ} {m : ℚ} (h : seriesMax l = some m) :
    m ∈ l := by
  cases l with
  | nil => cases h
  | cons a l =>
    unfold seriesMax at h
    rw [List.foldl_cons, seriesMax_from_some] at h
    injection h with h
    subst h
    rcases foldl_max_mem l a with h2 | h2
    · rw [h2]; exact List.mem_cons_self a l
    · exact List.mem_cons_of_mem a h2

/-- Every element is at most the `seriesMax`. -/
theorem le_seriesMax {l : List ℚ} {m x : ℚ} (hx : x ∈ l)
    (h : seriesMax l = some m) : x ≤ m := by
  cases l with
  | nil => cases hx
  | cons a l =>
    unfold seriesMax at h
    rw [List.foldl_cons, seriesMax_from_some] at h
    injection h with h
    subst h
    rcases List.mem_cons.mp hx with rfl | hx2
    · exact le_foldl_max l x
    · exact mem_le_foldl_max hx2 a

/-- A nonempty series has a maximum. -/
theorem seriesMax_isSome {l : List ℚ} (h : l ≠ []) :
    ∃ m, seriesMax l = some m := by
  cases l with
  | nil => exact absurd rfl h
  | cons a l =>
    refine ⟨l.foldl max a, ?_⟩
    unfold seriesMax
    rw [List.foldl_cons, seriesMax_from_some]

/-- Extending a series can only raise its maximum. -/
theorem seriesMax_append_le {l1 l2 : List ℚ} {m1 m2 : ℚ}
    (h1 : seriesMax l1 = some m1) (h2 : seriesMax (l1 ++ l2) = some m2) :
    m1 ≤ m2 := by
  exact le_seriesMax (List.mem_append_left l2 (seriesMax_mem h1)) h2

/-- Folding from a `some` seed computes an ordinary `min` fold. -/
theorem seriesMin_from_some (l : List ℚ) (m0 : ℚ) :
    l.foldl (fun acc x =>
      match acc with
      | none => some x
      | some m => some (min m x)) (some m0) = some (l.foldl min m0) := by
  induction l generalizing m0 with
  | nil => rfl
  | cons a l ih => exact ih (min m0 a)

/-- The `min` fold is below the seed. -/
theorem foldl_min_le (l : List ℚ) (m0 : ℚ) : l.foldl min m0 ≤ m0 := by
  induction l generalizing m0 with
  | nil => exact le_refl m0
  | cons a l ih => exact (ih (min m0 a)).trans (min_le_left m0 a)

/-- The `min` fold is below every element. -/
theorem foldl_min_le_mem {l : List ℚ} {x : ℚ} (hx : x ∈ l) (m0 : ℚ) :
    l.foldl min m0 ≤ x := by
  induction l generalizing m0 with
  | nil => cases hx
  | cons a l ih =>
    rcases List.mem_cons.mp hx with rfl | hx2
    · exact (foldl_min_le l (min m0 x)).trans (min_le_right m0 x)
    · exact ih hx2 (min m0 a)

/-- The `min` fold is the seed or an element. -/
theorem foldl_min_mem (l : List ℚ) (m0 : ℚ) :
    l.foldl min m0 = m0 ∨ l.foldl min m0 ∈ l := by
  induction l generalizing m0 with
  | nil => exact Or.inl rfl
  | cons a l ih =>
    rw [List.foldl_cons]
    rcases ih (min m0 a) with h | h
    · rcases min_cases m0 a with ⟨he, -⟩ | ⟨he, -⟩
      · exact Or.inl (by rw [h, he])
      · exact Or.inr (by rw [h, he]; exact List.mem_cons_self a l)
    · exact Or.inr (List.mem_cons_of_mem a h)

/-- A `seriesMin` value is an element of the series. -/
theorem seriesMin_mem {l : List ℚ} {m : ℚ} (h : seriesMin l = some m) :
    m ∈ l := by
  cases l with
  | nil => cases h
  | cons a l =>
    unfold seriesMin at h
    rw [List.foldl_cons, seriesMin_from_some] at h
    injection h with h
    subst h
    rcases foldl_min_mem l a with h2 | h2
    · rw [h2]; exact List.mem_cons_self a l
    · exact List.mem_cons_of_mem a h2

/-- The `seriesMin` is at most every element. -/
theorem seriesMin_le {l : List ℚ} {m x : ℚ} (hx : x ∈ l)
    (h : seriesMin l = some m) : m ≤ x := by
  cases l with
  | nil => cases hx
  | cons a l =>
    unfold seriesMin at h
    rw [List.foldl_cons, seriesMin_from_some] at h
    injection h with h
    subst h
    rcases List.mem_cons.mp hx with rfl | hx2
    · exact foldl_min_le l x
    · exact foldl_min_le_mem hx2 a


/-- Characterization of the resistance level: it is the high of some bar
of the resistance range, and it dominates every bar of the range. -/
theorem resistanceLevel_spec {df : List DailyBar} {setupIdx fvgIdx : ℕ}
    {r : ℚ} (h : resistanceLevel df setupIdx fvgIdx = some r) :
    (∃ j bar, (resistanceRange setupIdx fvgIdx).1 ≤ j ∧
      j < (resistanceRange setupIdx fvgIdx).2 ∧ df.get? j = some bar ∧
      bar.high = r) ∧
    (∀ j bar, (resistanceRange setupIdx fvgIdx).1 ≤ j →
      j < (resistanceRange setupIdx fvgIdx).2 → df.get? j = some bar →
      bar.high ≤ r) := by
  unfold resistanceLevel at h
  constructor
  · obtain ⟨bar, hbar, hhigh⟩ := List.mem_map.mp (seriesMax_mem h)
    obtain ⟨k, hk⟩ := List.get?_of_mem hbar
    have hklen := (List.get?_eq_some.mp hk).1
    rw [List.length_take] at hklen
    have hkba : k < (resistanceRange setupIdx fvgIdx).2 -
        (resistanceRange setupIdx fvgIdx).1 := lt_of_lt_of_le hklen
      (min_le_left _ _)
    rw [List.get?_take hkba, List.get?_drop] at hk
    exact ⟨(resistanceRange setupIdx fvgIdx).1 + k, bar, Nat.le_add_right _ _,
      by omega, hk, hhigh⟩
  · intro j bar hj1 hj2 hjbar
    have hjk : ((df.drop (resistanceRange setupIdx fvgIdx).1).take
        ((resistanceRange setupIdx fvgIdx).2 -
          (resistanceRange setupIdx fvgIdx).1)).get?
        (j - (resistanceRange setupIdx fvgIdx).1) = some bar := by
      rw [List.get?_take (by omega), List.get?_drop]
      rw [show (resistanceRange setupIdx fvgIdx).1 +
        (j - (resistanceRange setupIdx fvgIdx).1) = j by omega]
      exact hjbar
    exact le_seriesMax (List.mem_map_of_mem (fun b => b.high)
      (List.get?_mem hjk)) h

/-- When the scan finds no breakout, no scanned bar closes above the
threshold. -/
theorem firstBreakout_none_iff {df : List DailyBar} {r : ℚ}
    {idxs : List ℕ} :
    firstBreakout df r idxs = none ↔
      ∀ i ∈ idxs, ∀ bar, df.get? i = some bar →
        bar.close ≤ r * (1 + BREAKOUT_THRESHOLD) := by
  unfold firstBreakout
  rw [List.findSome?_eq_none]
  constructor
  · intro h i hi bar hbar
    have h2 := h i hi
    rw [hbar] at h2
    dsimp only at h2
    by_contra hgt
    rw [if_pos (not_le.mp hgt)] at h2
    cases h2
  · intro h i hi
    cases hbar : df.get? i with
    | none => rfl
    | some bar =>
      dsimp only
      rw [if_neg (not_lt.mpr (h i hi bar hbar))]

/-- When the scan finds a breakout, it is at the first qualifying bar of
the (increasing) scanned index list, and the payload is that bar's. -/
theorem firstBreakout_some_spec {df : List DailyBar} {r : ℚ}
    {idxs : List ℕ} {info : BreakoutInfo}
    (hsorted : List.Pairwise (fun x y => x < y) idxs)
    (h : firstBreakout df r idxs = some info) :
    ∃ i bar, i ∈ idxs ∧ df.get? i = some bar ∧
      r * (1 + BREAKOUT_THRESHOLD) < bar.close ∧
      info = ⟨bar.date, bar.close, r, (bar.close / r - 1) * 100,
        calculateVolumeIncreaseAtDate df bar.date⟩ ∧
      ∀ j ∈ idxs, j < i → ∀ barj, df.get? j = some barj →
        barj.close ≤ r * (1 + BREAKOUT_THRESHOLD) := by
  induction idxs with
  | nil => cases h
  | cons i0 rest ih =>
    rw [List.pairwise_cons] at hsorted
    unfold firstBreakout at h ih
    rw [List.findSome?_cons] at h
    cases hbar0 : df.get? i0 with
    | none =>
      rw [hbar0] at h
      dsimp only at h
      obtain ⟨i, bar, hmem, hbar, hgt, hinfo, hmin⟩ := ih hsorted.2 h
      refine ⟨i, bar, List.mem_cons_of_mem i0 hmem, hbar, hgt, hinfo, ?_⟩
      intro j hj hji barj hbarj
      rcases List.mem_cons.mp hj with rfl | hj2
      · rw [hbar0] at hbarj; cases hbarj
      · exact hmin j hj2 hji barj hbarj
    | some bar0 =>
      rw [hbar0] at h
      dsimp only at h
      by_cases hgt : bar0.close > r * (1 + BREAKOUT_THRESHOLD)
      · rw [if_pos hgt] at h
        injection h with h
        subst h
        refine ⟨i0, bar0, List.mem_cons_self i0 rest, hbar0, hgt, rfl, ?_⟩
        intro j hj hji barj hbarj
        rcases List.mem_cons.mp hj with rfl | hj2
        · omega
        · exact absurd hji (by have := hsorted.1 j hj2; omega)
      · rw [if_neg hgt] at h
        obtain ⟨i, bar, hmem, hbar, hgt2, hinfo, hmin⟩ := ih hsorted.2 h
        refine ⟨i, bar, List.mem_cons_of_mem i0 hmem, hbar, hgt2, hinfo, ?_⟩
        intro j hj hji barj hbarj
        rcases List.mem_cons.mp hj with rfl | hj2
        · rw [hbar0] at hbarj
          injection hbarj with hbarj
          subst hbarj
          exact not_lt.mp hgt
        · exact hmin j hj2 hji barj hbarj


/-- Full-path breakout detector, characterized, under the assumption that
the gap is never violated (`lower_bound * 0.98` is below every low from
the formation bar on). -/
theorem obd_spec {df : List DailyBar} {setup : Setup} {fvg : Fvg}
    {setupIdx fvgIdx : ℕ} {r : ℚ}
    (hsi : idxOfDate df setup.date = some setupIdx)
    (hfi : idxOfDate df fvg.formationDate = some fvgIdx)
    (hr : resistanceLevel df setupIdx fvgIdx = some r)
    (hnov : ∀ bar ∈ df.drop fvgIdx, fvg.lowerBound * 0.98 ≤ bar.low) :
    (optimized_breakout_detection_all_periods df setup fvg = none ↔
      ∀ j bar, fvgIdx < j → df.get? j = some bar →
        bar.close ≤ r * (1 + BREAKOUT_THRESHOLD)) ∧
    (∀ info, optimized_breakout_detection_all_periods df setup fvg =
        some (BreakoutResult.breakout info) →
      ∃ i bar, fvgIdx < i ∧ df.get? i = some bar ∧
        r * (1 + BREAKOUT_THRESHOLD) < bar.close ∧
        info = ⟨bar.date, bar.close, r, (bar.close / r - 1) * 100,
          calculateVolumeIncreaseAtDate df bar.date⟩ ∧
        ∀ j barj, fvgIdx < j → j < i → df.get? j = some barj →
          barj.close ≤ r * (1 + BREAKOUT_THRESHOLD)) ∧
    (∀ d, optimized_breakout_detection_all_periods df setup fvg ≠
      some (BreakoutResult.violated d)) := by
  have hbody : optimized_breakout_detection_all_periods df setup fvg =
      (firstBreakout df r
        (List.range' (fvgIdx + 1) (df.length - (fvgIdx + 1)))).map
        (fun info => BreakoutResult.breakout info) := by
    unfold optimized_breakout_detection_all_periods
    rw [hsi, hfi]
    dsimp only
    rw [hr]
    dsimp only
    cases hmin : seriesMin ((df.drop fvgIdx).map (fun b => b.low)) with
    | none => rfl
    | some minLow =>
      obtain ⟨bar, hbarmem, hbarlow⟩ := List.mem_map.mp (seriesMin_mem hmin)
      dsimp only
      rw [if_neg (not_lt.mpr (hbarlow ▸ hnov bar hbarmem))]
  have hrange : ∀ j : ℕ,
      j ∈ List.range' (fvgIdx + 1) (df.length - (fvgIdx + 1)) ↔
      (fvgIdx + 1 ≤ j ∧ j < fvgIdx + 1 + (df.length - (fvgIdx + 1))) :=
    fun j => List.mem_range'_1
  refine ⟨?_, ?_, ?_⟩
  · rw [hbody, Option.map_eq_none', firstBreakout_none_iff]
    constructor
    · intro h j bar hj hbar
      have hjlen := (List.get?_eq_some.mp hbar).1
      exact h j ((hrange j).mpr (by omega)) bar hbar
    · intro h i hi bar hbar
      exact h i bar (by have := (hrange i).mp hi; omega) hbar
  · intro info hinfo
    rw [hbody] at hinfo
    obtain ⟨info0, hfb, hinj⟩ := Option.map_eq_some'.mp hinfo
    injection hinj with hinj
    subst hinj
    obtain ⟨i, bar, hmem, hbar, hgt, hinfo0, hmin⟩ :=
      firstBreakout_some_spec (List.pairwise_lt_range' _ _) hfb
    refine ⟨i, bar, by have := (hrange i).mp hmem; omega, hbar, hgt,
      hinfo0, ?_⟩
    intro j barj hj1 hj2 hbarj
    have hjlen := (List.get?_eq_some.mp hbarj).1
    exact hmin j ((hrange j).mpr (by omega)) hj2 barj hbarj
  · intro d hd
    rw [hbody] at hd
    obtain ⟨info0, -, hinj⟩ := Option.map_eq_some'.mp hd
    cases hinj


set_option maxRecDepth 100000 in
/-- A close of 50.06 against resistance 50 triggers the breakout with
`breakout_percentage` 0.12. -/
theorem c4n_breakout_eval :
    optimized_breakout_detection_all_periods c4nDaily c4nSetup c4nFvg =
      some (BreakoutResult.breakout ⟨7, 50 + 6 / 100, 50, 0.12, none⟩) := by
  with_unfolding_all rfl

set_option maxRecDepth 100000 in
/-- With the data ending at the 50.04 close, no breakout triggers. -/
theorem c4n_short_eval :
    optimized_breakout_detection_all_periods c4nShort c4nSetup c4nFvg =
      none := by
  with_unfolding_all rfl

set_option maxRecDepth 100000 in
/-- C4 (amended).  Resistance is the maximum high over
`(setup_idx, fvg_idx)`; the fallback range includes the setup bar
itself (see `C4_counterexample`).  Breakout fires at the first bar after
formation whose close strictly exceeds `resistance * 1.001`; with
resistance 50.00, a close of 50.06 triggers at +0.12 % and a close of
50.04 does not. -/
theorem C4_resistance_and_breakout :
    (∀ setupIdx fvgIdx : ℕ, setupIdx + 1 < fvgIdx →
      resistanceRange setupIdx fvgIdx = (setupIdx + 1, fvgIdx)) ∧
    (∀ setupIdx fvgIdx : ℕ, fvgIdx ≤ setupIdx + 1 →
      resistanceRange setupIdx fvgIdx = (setupIdx - 10, setupIdx + 1)) ∧
    (∀ (df : List DailyBar) (setupIdx fvgIdx : ℕ) (r : ℚ),
      resistanceLevel df setupIdx fvgIdx = some r →
      (∃ j bar, (resistanceRange setupIdx fvgIdx).1 ≤ j ∧
        j < (resistanceRange setupIdx fvgIdx).2 ∧ df.get? j = some bar ∧
        bar.high = r) ∧
      (∀ j bar, (resistanceRange setupIdx fvgIdx).1 ≤ j →
        j < (resistanceRange setupIdx fvgIdx).2 → df.get? j = some bar →
        bar.high ≤ r)) ∧
    (∀ (df : List DailyBar) (setup : Setup) (fvg : Fvg)
      (setupIdx fvgIdx : ℕ) (r : ℚ),
      idxOfDate df setup.date = some setupIdx →
      idxOfDate df fvg.formationDate = some fvgIdx →
      resistanceLevel df setupIdx fvgIdx = some r →
      (∀ bar ∈ df.drop fvgIdx, fvg.lowerBound * 0.98 ≤ bar.low) →
      (optimized_breakout_detection_all_periods df setup fvg = none ↔
        ∀ j bar, fvgIdx < j → df.get? j = some bar →
          bar.close ≤ r * (1 + BREAKOUT_THRESHOLD)) ∧
      (∀ info, optimized_breakout_detection_all_periods df setup fvg =
          some (BreakoutResult.breakout info) →
        ∃ i bar, fvgIdx < i ∧ df.get? i = some bar ∧
          r * (1 + BREAKOUT_THRESHOLD) < bar.close ∧
          info = ⟨bar.date, bar.close, r, (bar.close / r - 1) * 100,
            calculateVolumeIncreaseAtDate df bar.date⟩ ∧
          ∀ j barj, fvgIdx < j → j < i → df.get? j = some barj →
            barj.close ≤ r * (1 + BREAKOUT_THRESHOLD))) ∧
    (optimized_breakout_detection_all_periods c4nDaily c4nSetup c4nFvg =
      some (BreakoutResult.breakout ⟨7, 50 + 6 / 100, 50, 0.12, none⟩)) ∧
    (optimized_breakout_detection_all_periods c4nShort c4nSetup c4nFvg =
      none) := by
  refine ⟨?_, ?_, ?_, ?_, ?_, ?_⟩
  · intro setupIdx fvgIdx h
    unfold resistanceRange
    rw [if_neg (by omega)]
  · intro setupIdx fvgIdx h
    unfold resistanceRange
    rw [if_pos h]
  · intro df setupIdx fvgIdx r h
    exact resistanceLevel_spec h
  · intro df setup fvg setupIdx fvgIdx r h1 h2 h3 h4
    exact ⟨(obd_spec h1 h2 h3 h4).1, (obd_spec h1 h2 h3 h4).2.1⟩
  · exact c4n_breakout_eval
  · exact c4n_short_eval

set_option maxRecDepth 100000 in
/-- C4 witness: the non-fallback resistance range and level on the
numeric series. -/
theorem C4_resistance_and_breakout_witness :
    resistanceRange 2 5 = (3, 5) ∧
    resistanceLevel c4nDaily 2 5 = some 50 ∧
    (∃ j bar, (resistanceRange 2 5).1 ≤ j ∧ j < (resistanceRange 2 5).2 ∧
      c4nDaily.get? j = some bar ∧ bar.high = 50) :=
  ⟨C4_resistance_and_breakout.1 2 5 (by decide),
   of_decide_eq_true (by with_unfolding_all rfl),
   (C4_resistance_and_breakout.2.2.1 c4nDaily 2 5 50
     (of_decide_eq_true (by with_unfolding_all rfl))).1⟩

/-- First-trigger characterization of the per-setup FVG loop: a signal
comes from a breakout on some input FVG that is not in the consumed set;
no FVG before it triggers, and the emitted list is exactly the processed
prefix — the consuming FVG and everything after it are dropped. -/
theorem processFvgs_sig {rs : ℕ → Option ℚ} {df : List DailyBar}
    {setup : Setup} {cF : List ℕ} :
    ∀ (fvgs : List Fvg) (sig : Signal),
      (processFvgs rs df setup cF fvgs).2 = some sig →
      ∃ pre fvg post,
        fvgs = pre ++ fvg :: post ∧
        ¬cF.contains fvg.id = true ∧
        (∃ info,
          optimized_breakout_detection_all_periods df setup fvg =
            some (BreakoutResult.breakout info) ∧
          sig = mkSignal fvg info (rs info.breakoutDate)) ∧
        (processFvgs rs df setup cF pre).2 = none ∧
        (processFvgs rs df setup cF fvgs).1 =
          (processFvgs rs df setup cF pre).1 := by
  intro fvgs
  induction fvgs with
  | nil => intro sig h; cases h
  | cons fvg rest ih =>
    intro sig h
    dsimp only [processFvgs] at h ⊢
    by_cases hc : cF.contains fvg.id = true
    · rw [if_pos hc] at h ⊢
      obtain ⟨pre, g, post, heq, hg1, hg2, hpre, hout⟩ := ih sig h
      refine ⟨fvg :: pre, g, post, by rw [heq]; rfl, hg1, hg2, ?_, ?_⟩
      · dsimp only [processFvgs]
        rw [if_pos hc]
        exact hpre
      · dsimp only [processFvgs]
        rw [if_pos hc]
        dsimp only
        rw [hout]
    · rw [if_neg hc] at h ⊢
      rcases hobd : optimized_breakout_detection_all_periods df setup fvg
        with - | r
      · rw [hobd] at h
        obtain ⟨pre, g, post, heq, hg1, hg2, hpre, hout⟩ := ih sig h
        refine ⟨fvg :: pre, g, post, by rw [heq]; rfl, hg1, hg2, ?_, ?_⟩
        · dsimp only [processFvgs]
          rw [if_neg hc, hobd]
          exact hpre
        · dsimp only [processFvgs]
          rw [if_neg hc, hobd]
          dsimp only
          rw [hout]
      · rcases r with d | info
        · rw [hobd] at h
          obtain ⟨pre, g, post, heq, hg1, hg2, hpre, hout⟩ := ih sig h
          refine ⟨fvg :: pre, g, post, by rw [heq]; rfl, hg1, hg2, ?_, ?_⟩
          · dsimp only [processFvgs]
            rw [if_neg hc, hobd]
            exact hpre
          · dsimp only [processFvgs]
            rw [if_neg hc, hobd]
            dsimp only
            rw [hout]
        · rw [hobd] at h
          injection h with h
          subst h
          exact ⟨[], fvg, rest, rfl, hc, ⟨info, hobd, rfl⟩, rfl, rfl⟩

/-- Every FVG the per-setup loop emits carries the id of one of its
input FVGs (statuses change, ids do not). -/
theorem processFvgs_out_ids {rs : ℕ → Option ℚ} {df : List DailyBar}
    {setup : Setup} {cF : List ℕ} :
    ∀ (fvgs : List Fvg) (f : Fvg),
      f ∈ (processFvgs rs df setup cF fvgs).1 →
      ∃ g ∈ fvgs, f.id = g.id := by
  intro fvgs
  induction fvgs with
  | nil => intro f hf; cases hf
  | cons fvg rest ih =>
    intro f hf
    dsimp only [processFvgs] at hf
    by_cases hc : cF.contains fvg.id = true
    · rw [if_pos hc] at hf
      rcases List.mem_cons.mp hf with heq | htail
      · exact ⟨fvg, List.mem_cons_self _ _, by rw [heq]⟩
      · obtain ⟨g, hg, hid⟩ := ih f htail
        exact ⟨g, List.mem_cons_of_mem _ hg, hid⟩
    · rw [if_neg hc] at hf
      rcases hobd : optimized_breakout_detection_all_periods df setup fvg
        with - | r
      · rw [hobd] at hf
        rcases List.mem_cons.mp hf with heq | htail
        · exact ⟨fvg, List.mem_cons_self _ _, by rw [heq]⟩
        · obtain ⟨g, hg, hid⟩ := ih f htail
          exact ⟨g, List.mem_cons_of_mem _ hg, hid⟩
      · rcases r with d | info
        · rw [hobd] at hf
          rcases List.mem_cons.mp hf with heq | htail
          · exact ⟨fvg, List.mem_cons_self _ _, by rw [heq]⟩
          · obtain ⟨g, hg, hid⟩ := ih f htail
            exact ⟨g, List.mem_cons_of_mem _ hg, hid⟩
        · rw [hobd] at hf
          cases hf

/-- Every FVG found by the full-scan detector is owned by the setup it
was called for. -/
theorem fvg_detection_setupId {df : List DailyBar} {setup : Setup}
    {n : ℕ} {f : Fvg} (hf : f ∈ optimized_fvg_detection df setup n) :
    f.setupId = setup.id := by
  unfold optimized_fvg_detection at hf
  split at hf
  next => cases hf
  next =>
    unfold mkFvgs at hf
    obtain ⟨p, -, rfl⟩ := List.mem_map.mp hf
    rfl

/-- Ids of the FVGs found by the full-scan detector lie in the block
the fresh-id counter reserves for this setup. -/
theorem fvg_detection_ids {df : List DailyBar} {setup : Setup} {n : ℕ}
    {f : Fvg} (hf : f ∈ optimized_fvg_detection df setup n) :
    n ≤ f.id ∧
      f.id < n + (optimized_fvg_detection df setup n).length := by
  unfold optimized_fvg_detection at hf ⊢
  split at hf
  next => cases hf
  next =>
    unfold mkFvgs at hf ⊢
    obtain ⟨p, hp, rfl⟩ := List.mem_map.mp hf
    have hlt : p.1 < _ :=
      (List.get?_eq_some.mp (List.mem_enum_iff_get?.mp hp)).1
    dsimp only
    rw [List.length_map, List.enum_length]
    exact ⟨Nat.le_add_right _ _, by omega⟩

/-- Ids of the FVGs found by the full-scan detector are pairwise
distinct. -/
theorem fvg_detection_ids_nodup (df : List DailyBar) (setup : Setup)
    (n : ℕ) :
    ((optimized_fvg_detection df setup n).map (fun f => f.id)).Nodup := by
  unfold optimized_fvg_detection
  split
  next => exact List.nodup_nil
  next =>
    unfold mkFvgs
    rw [List.map_map]
    show (List.map (fun p : ℕ × FvgCore => n + p.1) _).Nodup
    have h1 : ∀ (l : List FvgCore),
        List.map (fun p : ℕ × FvgCore => n + p.1) l.enum =
          List.map (fun k => n + k) (List.map Prod.fst l.enum) := by
      intro l
      rw [List.map_map]
      rfl
    rw [h1, List.enum_map_fst]
    exact (List.nodup_range _).map (fun a b hab => by omega)

/-- Every signal emitted by the full-scan setup loop is matched by a
`consumed` setup record in the output. -/
theorem processSetups_sig {rs : ℕ → Option ℚ} {df : List DailyBar} :
    ∀ (setups : List Setup) (cS cF : List ℕ) (n : ℕ),
      ∀ sig ∈ (processSetups rs df setups cS cF n).2.2.1,
      ∃ s ∈ (processSetups rs df setups cS cF n).1,
        s.id = sig.setupId ∧ s.status = Status.consumed := by
  intro setups
  induction setups with
  | nil => intro cS cF n sig hsig; cases hsig
  | cons setup rest ih =>
    intro cS cF n sig hsig
    dsimp only [processSetups] at hsig ⊢
    by_cases hc : cS.contains setup.id = true
    · rw [if_pos hc] at hsig ⊢
      obtain ⟨s, hs, h1, h2⟩ := ih cS cF n sig hsig
      exact ⟨s, List.mem_cons_of_mem _ hs, h1, h2⟩
    · rw [if_neg hc] at hsig ⊢
      rcases hin : (processFvgs rs df setup cF
          (optimized_fvg_detection df setup n)).2 with - | signal
      · rw [hin] at hsig
        obtain ⟨s, hs, h1, h2⟩ :=
          ih cS cF (n + (optimized_fvg_detection df setup n).length) sig hsig
        exact ⟨s, List.mem_cons_of_mem _ hs, h1, h2⟩
      · rw [hin] at hsig
        rcases List.mem_cons.mp hsig with heq | htail
        · subst heq
          obtain ⟨pre, g0, post, heqdet, -, ⟨info, -, hsigeq⟩, -, -⟩ :=
            processFvgs_sig _ sig hin
          have hg0 : g0 ∈ optimized_fvg_detection df setup n := by
            rw [heqdet]
            exact List.mem_append_right _ (List.mem_cons_self _ _)
          have hsid : sig.setupId = setup.id := by
            rw [hsigeq]
            exact fvg_detection_setupId hg0
          exact ⟨{ setup with status := Status.consumed },
            List.mem_cons_self _ _, hsid.symm, rfl⟩
        · obtain ⟨s, hs, h1, h2⟩ :=
            ih (cS ++ [setup.id]) (cF ++ [signal.id])
              (n + (optimized_fvg_detection df setup n).length) sig htail
          exact ⟨s, List.mem_cons_of_mem _ hs, h1, h2⟩

/-- The setup ids of the signals the full-scan loop emits form a sublist
of the input setup ids. -/
theorem processSetups_sublist {rs : ℕ → Option ℚ} {df : List DailyBar} :
    ∀ (setups : List Setup) (cS cF : List ℕ) (n : ℕ),
      List.Sublist
        ((processSetups rs df setups cS cF n).2.2.1.map
          (fun g => g.setupId))
        (setups.map (fun s => s.id)) := by
  intro setups
  induction setups with
  | nil => intro cS cF n; exact List.Sublist.refl _
  | cons setup rest ih =>
    intro cS cF n
    dsimp only [processSetups]
    by_cases hc : cS.contains setup.id = true
    · rw [if_pos hc]
      exact (ih cS cF n).cons _
    · rw [if_neg hc]
      rcases hin : (processFvgs rs df setup cF
          (optimized_fvg_detection df setup n)).2 with - | signal
      · exact (ih cS cF
          (n + (optimized_fvg_detection df setup n).length)).cons _
      · obtain ⟨pre, g0, post, heqdet, -, ⟨info, -, hsigeq⟩, -, -⟩ :=
          processFvgs_sig _ signal hin
        have hg0 : g0 ∈ optimized_fvg_detection df setup n := by
          rw [heqdet]
          exact List.mem_append_right _ (List.mem_cons_self _ _)
        have hsid : signal.setupId = setup.id := by
          rw [hsigeq]
          exact fvg_detection_setupId hg0
        dsimp only [List.map]
        rw [hsid]
        exact (ih (cS ++ [setup.id]) (cF ++ [signal.id])
          (n + (optimized_fvg_detection df setup n).length)).cons₂ _

/-- Id bookkeeping for the full-scan setup loop: the returned counter
dominates the input counter, all emitted FVG and signal ids lie in
`[n, counter)`, and — because the consuming FVG of a signal is never
emitted — no emitted FVG carries a signal's id. -/
theorem processSetups_ids {rs : ℕ → Option ℚ} {df : List DailyBar} :
    ∀ (setups : List Setup) (cS cF : List ℕ) (n : ℕ),
      n ≤ (processSetups rs df setups cS cF n).2.2.2 ∧
      (∀ f ∈ (processSetups rs df setups cS cF n).2.1,
         n ≤ f.id ∧ f.id < (processSetups rs df setups cS cF n).2.2.2) ∧
      (∀ sig ∈ (processSetups rs df setups cS cF n).2.2.1,
         n ≤ sig.id ∧
           sig.id < (processSetups rs df setups cS cF n).2.2.2) ∧
      (∀ sig ∈ (processSetups rs df setups cS cF n).2.2.1,
         ∀ f ∈ (processSetups rs df setups cS cF n).2.1,
           f.id ≠ sig.id) := by
  intro setups
  induction setups with
  | nil =>
    intro cS cF n
    refine ⟨Nat.le_refl _, ?_, ?_, ?_⟩
    · intro f hf
      cases hf
    · intro sig hsig
      cases hsig
    · intro sig hsig
      cases hsig
  | cons setup rest ih =>
    intro cS cF n
    dsimp only [processSetups]
    by_cases hc : cS.contains setup.id = true
    · rw [if_pos hc]
      exact ih cS cF n
    · rw [if_neg hc]
      rcases hin : (processFvgs rs df setup cF
          (optimized_fvg_detection df setup n)).2 with - | signal
      · -- no signal from this setup
        dsimp only
        obtain ⟨hD, hA, hB, hC⟩ :=
          ih cS cF (n + (optimized_fvg_detection df setup n).length)
        refine ⟨by omega, ?_, ?_, ?_⟩
        · intro f hf
          rcases List.mem_append.mp hf with hL | hR
          · obtain ⟨g, hg, hid⟩ := processFvgs_out_ids _ f hL
            obtain ⟨hg1, hg2⟩ := fvg_detection_ids hg
            rw [hid]
            omega
          · have := hA f hR
            omega
        · intro sig hsig
          have := hB sig hsig
          omega
        · intro sig hsig f hf
          rcases List.mem_append.mp hf with hL | hR
          · obtain ⟨g, hg, hid⟩ := processFvgs_out_ids _ f hL
            obtain ⟨-, hg2⟩ := fvg_detection_ids hg
            have := hB sig hsig
            omega
          · exact hC sig hsig f hR
      · -- this setup signals
        dsimp only
        obtain ⟨hD, hA, hB, hC⟩ :=
          ih (cS ++ [setup.id]) (cF ++ [signal.id])
            (n + (optimized_fvg_detection df setup n).length)
        obtain ⟨pre, g0, post, heqdet, -, ⟨info, -, hsigeq⟩, -, houtpre⟩ :=
          processFvgs_sig _ signal hin
        have hg0 : g0 ∈ optimized_fvg_detection df setup n := by
          rw [heqdet]
          exact List.mem_append_right _ (List.mem_cons_self _ _)
        obtain ⟨hg01, hg02⟩ := fvg_detection_ids hg0
        have hsigid : signal.id = g0.id := by
          rw [hsigeq]
          rfl
        have hpreid : ∀ f ∈ (processFvgs rs df setup cF
            (optimized_fvg_detection df setup n)).1,
            (n ≤ f.id ∧
              f.id < n + (optimized_fvg_detection df setup n).length) ∧
            f.id ≠ g0.id := by
          intro f hf
          rw [houtpre] at hf
          obtain ⟨g, hg, hid⟩ := processFvgs_out_ids _ f hf
          have hgdet : g ∈ optimized_fvg_detection df setup n := by
            rw [heqdet]
            exact List.mem_append_left _ hg
          obtain ⟨h1, h2⟩ := fvg_detection_ids hgdet
          have hne : g.id ≠ g0.id := by
            have hnd := fvg_detection_ids_nodup df setup n
            rw [heqdet, List.map_append, List.map_cons] at hnd
            obtain ⟨-, -, hdisj⟩ := List.nodup_append.mp hnd
            intro hEq
            exact hdisj (List.mem_map.mpr ⟨g, hg, rfl⟩)
              (hEq ▸ List.mem_cons_self _ _)
          rw [hid]
          exact ⟨⟨h1, h2⟩, hne⟩
        refine ⟨by omega, ?_, ?_, ?_⟩
        · intro f hf
          rcases List.mem_append.mp hf with hL | hR
          · have := (hpreid f hL).1
            omega
          · have := hA f hR
            omega
        · intro sig hsig
          rcases List.mem_cons.mp hsig with heq | htail
          · subst heq
            omega
          · have := hB sig htail
            omega
        · intro sig hsig f hf
          rcases List.mem_cons.mp hsig with heq | htail
          · subst heq
            rcases List.mem_append.mp hf with hL | hR
            · have h1 := (hpreid f hL).2
              omega
            · have := hA f hR
              omega
          · rcases List.mem_append.mp hf with hL | hR
            · have h1 := (hpreid f hL).1
              have := hB sig htail
              omega
            · exact hC sig htail f hR

/-- The differential breakout loop preserves the id counter and appends
at most one signal per run; when it does, the signal's setup is one of
the current setups, and in the resulting state every setup record with
that id and every FVG record owned by it is `consumed`. -/
theorem diffBreakoutLoop_spec {rs : ℕ → Option ℚ} {df : List DailyBar}
    {la : ℕ} :
    ∀ (ids : List ℕ) (acc acc' : DiffAcc),
      diffBreakoutLoop rs df la ids acc = some acc' →
      acc'.nextId = acc.nextId ∧
      (acc'.signals = acc.signals ∨
       ∃ sig, acc'.signals = acc.signals ++ [sig] ∧ acc'.updated = true ∧
         (∃ s0 ∈ acc.setups, s0.id = sig.setupId) ∧
         (∀ s ∈ acc'.setups, s.id = sig.setupId →
            s.status = Status.consumed) ∧
         (∀ f ∈ acc'.fvgs, f.setupId = sig.setupId →
            f.status = Status.consumed)) := by
  intro ids
  induction ids with
  | nil =>
    intro acc acc' h
    injection h with h
    subst h
    exact ⟨rfl, Or.inl rfl⟩
  | cons fvgId rest ih =>
    intro acc acc' h
    dsimp only [diffBreakoutLoop] at h
    rcases hfind : acc.fvgs.find? (fun f => f.id = fvgId) with - | fvg
    · rw [hfind] at h
      exact ih acc acc' h
    · rw [hfind] at h
      dsimp only at h
      rcases hsf : acc.setups.find? (fun s => s.id = fvg.setupId)
        with - | setup
      · rw [hsf] at h
        exact ih acc acc' h
      · rw [hsf] at h
        dsimp only at h
        by_cases hst : setup.status = Status.consumed
        · rw [if_pos hst] at h
          exact ih acc acc' h
        · rw [if_neg hst] at h
          rcases hidx : idxOfDate df fvg.formationDate with - | fvgIdx
          · rw [hidx] at h
            cases h
          · rw [hidx] at h
            dsimp only at h
            split at h
            · exact ih acc acc' h
            · split at h
              · -- breakout arm: the run returns at once with one signal
                rename_i info heq
                injection h with h
                subst h
                have hsid : setup.id = fvg.setupId := by
                  simpa using List.find?_some hsf
                refine ⟨rfl, Or.inr ⟨mkSignal fvg info (rs info.breakoutDate),
                  rfl, rfl, ⟨setup, List.mem_of_find?_eq_some hsf, hsid⟩,
                  ?_, ?_⟩⟩
                · intro s hs hid
                  obtain ⟨s0, hs0, rfl⟩ := List.mem_map.mp hs
                  by_cases h0 : s0.id = setup.id
                  · rw [if_pos h0]
                  · rw [if_neg h0] at hid
                    exact absurd (hid.trans hsid.symm) h0
                · intro f hf hid
                  obtain ⟨f0, hf0, rfl⟩ := List.mem_map.mp hf
                  by_cases h0 : f0.setupId = setup.id
                  · rw [if_pos h0]
                  · rw [if_neg h0] at hid
                    exact absurd (hid.trans hsid.symm) h0
              · obtain ⟨h1, h2⟩ := ih _ acc' h
                exact ⟨h1, h2⟩
              · obtain ⟨h1, h2⟩ := ih _ acc' h
                exact ⟨h1, h2⟩

/-- One step of the differential FVG search leaves setups and signals
untouched and never decreases the fresh-id counter. -/
theorem diffFvgSearchStep_spec {df : List DailyBar} {la : ℕ}
    {acc : DiffAcc} {setup : Setup} {acc' : DiffAcc}
    (h : diffFvgSearchStep df la acc setup = some acc') :
    acc'.setups = acc.setups ∧ acc'.signals = acc.signals ∧
    acc.nextId ≤ acc'.nextId := by
  unfold diffFvgSearchStep at h
  split at h
  next => cases h
  next setupIdx hidx =>
    dsimp only at h
    split_ifs at h
    all_goals injection h with h
    all_goals subst h
    all_goals
      first
        | exact ⟨rfl, rfl, Nat.le_refl _⟩
        | exact ⟨rfl, rfl, Nat.le_add_right _ _⟩

/-- The whole differential FVG-search phase leaves setups and signals
untouched and never decreases the fresh-id counter. -/
theorem diffFvgSearch_foldlM {df : List DailyBar} {la : ℕ} :
    ∀ (l : List Setup) (acc acc' : DiffAcc),
      List.foldlM (diffFvgSearchStep df la) acc l = some acc' →
      acc'.setups = acc.setups ∧ acc'.signals = acc.signals ∧
      acc.nextId ≤ acc'.nextId := by
  intro l
  induction l with
  | nil =>
    intro acc acc' h
    injection h with h
    subst h
    exact ⟨rfl, rfl, Nat.le_refl _⟩
  | cons x xs ih =>
    intro acc acc' h
    rw [List.foldlM_cons] at h
    rcases hx : diffFvgSearchStep df la acc x with - | accMid
    · rw [hx] at h
      cases h
    · rw [hx] at h
      obtain ⟨h1, h2, h3⟩ := ih accMid acc' h
      obtain ⟨g1, g2, g3⟩ := diffFvgSearchStep_spec hx
      exact ⟨h1.trans g1, h2.trans g2, Nat.le_trans g3 h3⟩

/-- Ids of freshly detected setups start at the fresh-id counter. -/
theorem rule2_setups_id_ge {df : List DailyBar} {w : WeeklyFrame}
    {fs : Bool} {sd : Option ℕ} {n : ℕ} {s : Setup}
    (hs : s ∈ optimized_rule2_setups df w fs sd n) : n ≤ s.id := by
  unfold optimized_rule2_setups at hs
  dsimp only at hs
  split at hs
  next => cases hs
  next =>
    obtain ⟨p, hp, rfl⟩ := List.mem_map.mp hs
    exact Nat.le_add_right _ _

/-- Ids of freshly detected setups are pairwise distinct. -/
theorem rule2_setups_ids_nodup (df : List DailyBar) (w : WeeklyFrame)
    (fs : Bool) (sd : Option ℕ) (n : ℕ) :
    ((optimized_rule2_setups df w fs sd n).map (fun s => s.id)).Nodup := by
  unfold optimized_rule2_setups
  dsimp only
  split
  next => exact List.nodup_nil
  next =>
    rw [List.map_map]
    show (List.map (fun p : ℕ × SetupCore => n + p.1) _).Nodup
    have h1 : ∀ (l : List SetupCore),
        List.map (fun p => n + p.1) l.enum =
          List.map (fun k => n + k) (List.map Prod.fst l.enum) := by
      intro l
      rw [List.map_map]
      rfl
    rw [h1, List.enum_map_fst]
    exact (List.nodup_range _).map (fun a b hab => by omega)

/-- Consumption exclusivity on the differential path: a run appends at
most one signal, and when it does, every persisted setup record with the
signal's setup id and every persisted FVG record owned by it is
`consumed`.  Fresh ids are assumed not to collide with stored setup ids
(`uuid4` in the source). -/
theorem differentialAnalysis_signal {rs : ℕ → Option ℚ}
    {df : List DailyBar} {w : WeeklyFrame} {existing : SymState}
    {lmd now fid : ℕ} {st : SymState} {saved : Bool}
    {items : List SummaryItem}
    (hfresh : ∀ s ∈ existing.setups, s.id < fid)
    (h : differentialAnalysis rs df w existing lmd now fid =
      some (st, saved, items)) :
    st.signals = existing.signals ∨
    ∃ sig, st.signals = existing.signals ++ [sig] ∧
      (∀ s ∈ st.setups, s.id = sig.setupId → s.status = Status.consumed) ∧
      (∀ f ∈ st.fvgs, f.setupId = sig.setupId →
         f.status = Status.consumed) := by
  unfold differentialAnalysis at h
  dsimp only at h
  split_ifs at h with hle
  · injection h with h
    rw [Prod.mk.injEq] at h
    obtain ⟨hst, -⟩ := h
    subst hst
    exact Or.inl rfl
  · split at h
    next => cases h
    next acc1 heq1 =>
      split at h
      next => cases h
      next acc2 heq2 =>
        obtain ⟨hset1, hsig1, hn1⟩ := diffFvgSearch_foldlM _ _ _ heq1
        obtain ⟨hn2, hdisj⟩ := diffBreakoutLoop_spec _ _ _ heq2
        have key : ∀ acc3 : DiffAcc,
            acc3.signals = acc2.signals →
            (∀ s ∈ acc3.setups, s ∈ acc2.setups ∨ acc2.nextId ≤ s.id) →
            acc3.fvgs = acc2.fvgs →
            (acc2.updated = true → acc3.updated = true) →
            (if acc3.updated = true then
                { lastUpdated := now, setups := acc3.setups,
                  fvgs := acc3.fvgs, signals := acc3.signals }
              else existing) = st →
            st.signals = existing.signals ∨
            ∃ sig, st.signals = existing.signals ++ [sig] ∧
              (∀ s ∈ st.setups, s.id = sig.setupId →
                 s.status = Status.consumed) ∧
              (∀ f ∈ st.fvgs, f.setupId = sig.setupId →
                 f.status = Status.consumed) := by
          intro acc3 h3sig h3mem h3fvg h3upd hst
          rcases hdisj with hsame | ⟨sig, hs1, hs2, ⟨s0, hs0, hs0id⟩,
            hs3, hs4⟩
          · left
            split at hst
            · subst hst
              show acc3.signals = existing.signals
              rw [h3sig, hsame, hsig1]
            · subst hst
              rfl
          · split at hst
            · subst hst
              refine Or.inr ⟨sig, ?_, ?_, ?_⟩
              · show acc3.signals = existing.signals ++ [sig]
                rw [h3sig, hs1, hsig1]
              · intro s hs hid
                rcases h3mem s hs with hA | hB
                · exact hs3 s hA hid
                · exfalso
                  have h2 : sig.setupId < fid := by
                    rw [← hs0id]
                    refine hfresh s0 ?_
                    rw [hset1] at hs0
                    exact hs0
                  have hfid : fid ≤ acc1.nextId := hn1
                  omega
              · intro f hf hid
                rw [h3fvg] at hf
                exact hs4 f hf hid
            · rename_i hupd
              exact absurd (h3upd hs2) hupd
        split at h
        · split at h
          · injection h with h
            rw [Prod.mk.injEq] at h
            obtain ⟨hst, -⟩ := h
            exact key acc2 rfl (fun s hs => Or.inl hs) rfl (fun hu => hu) hst
          · injection h with h
            rw [Prod.mk.injEq] at h
            obtain ⟨hst, -⟩ := h
            refine key _ ?_ ?_ ?_ ?_ hst
            · rfl
            · intro s hs
              rcases List.mem_append.mp hs with hA | hB
              · exact Or.inl hA
              · exact Or.inr (rule2_setups_id_ge hB)
            · rfl
            · intro hu
              rfl
        · injection h with h
          rw [Prod.mk.injEq] at h
          obtain ⟨hst, -⟩ := h
          exact key acc2 rfl (fun s hs => Or.inl hs) rfl (fun hu => hu) hst

/-- Consumption exclusivity on the full-scan path: at most one signal
per setup id; every signal's setup is persisted `consumed`; and no
persisted FVG record carries a signal's id — the consuming FVG is
dropped by the `break` before `all_fvgs.append`. -/
theorem fullAnalysis_consumption {rs : ℕ → Option ℚ} {df : List DailyBar}
    {w : WeeklyFrame} {lmd now fid : ℕ} {st : SymState}
    {items : List SummaryItem}
    (h : fullAnalysis rs df w lmd now fid = some (st, items)) :
    (∀ sid : ℕ, (st.signals.map (fun g => g.setupId)).count sid ≤ 1) ∧
    (∀ sig ∈ st.signals,
      ∃ s ∈ st.setups, s.id = sig.setupId ∧ s.status = Status.consumed) ∧
    (∀ sig ∈ st.signals, ∀ f ∈ st.fvgs, f.id ≠ sig.id) := by
  unfold fullAnalysis at h
  dsimp only at h
  split_ifs at h
  injection h with h
  rw [Prod.mk.injEq] at h
  obtain ⟨hst, -⟩ := h
  subst hst
  refine ⟨?_, ?_, ?_⟩
  · intro sid
    exact List.nodup_iff_count_le_one.mp
      ((processSetups_sublist _ _ _ _).nodup
        (rule2_setups_ids_nodup df w true none fid)) sid
  · intro sig hsig
    exact processSetups_sig _ _ _ _ sig hsig
  · intro sig hsig
    exact (processSetups_ids _ _ _ _).2.2.2 sig hsig

/-- C3 (amended).  For every Setup at most one Signal with that Setup's
id is ever emitted, and an emitted Signal consumes its Setup — but not,
on the full-scan path, its GapZone record: (1) the per-setup loop's
signal comes from a breakout on the first triggering FVG; the loop
`break`s before the append, so the emitted list is exactly the processed
prefix — the consuming FVG and everything after it are dropped; (2)
every signal of the full-scan loop has a `consumed` setup record in the
output; (2b) no emitted FVG record carries a signal's id; (3) the loop
emits at most one signal per setup id when the input ids are distinct;
(4) the persisted full-scan state satisfies all of these; (5) the
differential breakout loop appends at most one signal per run, and when
it does, every setup record with the signal's setup id and every FVG
record owned by it — including `violated` ones — is `consumed`; (6) the
same holds for the persisted state of a differential run when fresh ids
do not collide with stored setup ids. -/
theorem C3_consumption_invariants :
    (∀ (rs : ℕ → Option ℚ) (df : List DailyBar) (setup : Setup)
       (consumedFvgs : List ℕ) (fvgs : List Fvg) (sig : Signal),
      (processFvgs rs df setup consumedFvgs fvgs).2 = some sig →
      ∃ pre fvg post,
        fvgs = pre ++ fvg :: post ∧
        ¬consumedFvgs.contains fvg.id = true ∧
        (∃ info,
          optimized_breakout_detection_all_periods df setup fvg =
            some (BreakoutResult.breakout info) ∧
          sig = mkSignal fvg info (rs info.breakoutDate)) ∧
        (processFvgs rs df setup consumedFvgs pre).2 = none ∧
        (processFvgs rs df setup consumedFvgs fvgs).1 =
          (processFvgs rs df setup consumedFvgs pre).1) ∧
    (∀ (rs : ℕ → Option ℚ) (df : List DailyBar) (setups : List Setup)
       (cS cF : List ℕ) (n : ℕ),
      ∀ sig ∈ (processSetups rs df setups cS cF n).2.2.1,
      (∃ s ∈ (processSetups rs df setups cS cF n).1,
         s.id = sig.setupId ∧ s.status = Status.consumed) ∧
      (∀ f ∈ (processSetups rs df setups cS cF n).2.1,
         f.id ≠ sig.id)) ∧
    (∀ (rs : ℕ → Option ℚ) (df : List DailyBar) (setups : List Setup)
       (cS cF : List ℕ) (n : ℕ),
      (setups.map (fun s => s.id)).Nodup →
      ∀ sid : ℕ, ((processSetups rs df setups cS cF n).2.2.1.map
        (fun g => g.setupId)).count sid ≤ 1) ∧
    (∀ (rs : ℕ → Option ℚ) (df : List DailyBar) (w : WeeklyFrame)
       (lmd now fid : ℕ) (st : SymState) (items : List SummaryItem),
      fullAnalysis rs df w lmd now fid = some (st, items) →
      (∀ sid : ℕ, (st.signals.map (fun g => g.setupId)).count sid ≤ 1) ∧
      (∀ sig ∈ st.signals,
        ∃ s ∈ st.setups, s.id = sig.setupId ∧
          s.status = Status.consumed) ∧
      (∀ sig ∈ st.signals, ∀ f ∈ st.fvgs, f.id ≠ sig.id)) ∧
    (∀ (rs : ℕ → Option ℚ) (df : List DailyBar) (la : ℕ) (ids : List ℕ)
       (acc acc' : DiffAcc),
      diffBreakoutLoop rs df la ids acc = some acc' →
      acc'.signals = acc.signals ∨
      ∃ sig, acc'.signals = acc.signals ++ [sig] ∧
        (∀ s ∈ acc'.setups, s.id = sig.setupId →
           s.status = Status.consumed) ∧
        (∀ f ∈ acc'.fvgs, f.setupId = sig.setupId →
           f.status = Status.consumed)) ∧
    (∀ (rs : ℕ → Option ℚ) (df : List DailyBar) (w : WeeklyFrame)
       (existing : SymState) (lmd now fid : ℕ) (st : SymState)
       (saved : Bool) (items : List SummaryItem),
      (∀ s ∈ existing.setups, s.id < fid) →
      differentialAnalysis rs df w existing lmd now fid =
        some (st, saved, items) →
      st.signals = existing.signals ∨
      ∃ sig, st.signals = existing.signals ++ [sig] ∧
        (∀ s ∈ st.setups, s.id = sig.setupId →
           s.status = Status.consumed) ∧
        (∀ f ∈ st.fvgs, f.setupId = sig.setupId →
           f.status = Status.consumed)) := by
  refine ⟨?_, ?_, ?_, ?_, ?_, ?_⟩
  · intro rs df setup cF fvgs sig h
    exact processFvgs_sig fvgs sig h
  · intro rs df setups cS cF n sig hsig
    exact ⟨processSetups_sig setups cS cF n sig hsig,
      fun f hf => (processSetups_ids setups cS cF n).2.2.2 sig hsig f hf⟩
  · intro rs df setups cS cF n hnd sid
    exact List.nodup_iff_count_le_one.mp
      ((processSetups_sublist setups cS cF n).nodup hnd) sid
  · intro rs df w lmd now fid st items h
    exact fullAnalysis_consumption h
  · intro rs df la ids acc acc' h
    rcases (diffBreakoutLoop_spec ids acc acc' h).2
      with h1 | ⟨sig, a, -, -, d, e⟩
    · exact Or.inl h1
    · exact Or.inr ⟨sig, a, d, e⟩
  · intro rs df w existing lmd now fid st saved items hfresh h
    exact differentialAnalysis_signal hfresh h

set_option maxRecDepth 100000 in
/-- C3 witness: on the concrete breakout dataset the per-setup loop
emits the breakout signal from its single FVG and emits no FVG record
at all. -/
theorem C3_consumption_invariants_witness :
    ∃ pre fvg post,
      ([c4nFvg] : List Fvg) = pre ++ fvg :: post ∧
      ¬([] : List ℕ).contains fvg.id = true ∧
      (∃ info,
        optimized_breakout_detection_all_periods c4nDaily c4nSetup fvg =
          some (BreakoutResult.breakout info) ∧
        mkSignal c4nFvg ⟨7, 50 + 6 / 100, 50, 12 / 100, none⟩ none =
          mkSignal fvg info (rsNone info.breakoutDate)) ∧
      (processFvgs rsNone c4nDaily c4nSetup [] pre).2 = none ∧
      (processFvgs rsNone c4nDaily c4nSetup [] [c4nFvg]).1 =
        (processFvgs rsNone c4nDaily c4nSetup [] pre).1 :=
  C3_consumption_invariants.1 rsNone c4nDaily c4nSetup [] [c4nFvg]
    (mkSignal c4nFvg ⟨7, 50 + 6 / 100, 50, 12 / 100, none⟩ none)
    (by with_unfolding_all rfl)

/-- C7, code bug.  `_save_to_db` is framed as one `BEGIN` / `commit` /
`rollback` transaction, but the two pandas `to_sql` calls on the raw
sqlite3 connection each COMMIT the connection on success: (1) with no
failure the write replaces the symbol's rows and the metadata is then
refreshed; (2) a failure in the daily insert rolls the whole
transaction back, leaving the store unchanged and the metadata not
advanced; (3) a failure in the weekly insert, however, happens after
the daily `to_sql` already committed the deletes and the daily rows —
the symbol's prior weekly rows are gone, its daily rows are replaced,
and only the metadata is untouched, so previously stored rows are NOT
intact; (4) concretely, a store holding one weekly row for `A` loses it
on a failed write. -/
theorem C7_write_atomicity_violated :
    (∀ (db : Database) (symbol : String) (dfDaily dfWeekly : List DbRow)
       (now : ℕ),
      ((cacheSyncWrite db symbol dfDaily dfWeekly FailPoint.ok now).1 =
        some ()) ∧
      ((cacheSyncWrite db symbol dfDaily dfWeekly
          FailPoint.ok now).2.daily.filter (fun r => r.1 = symbol) =
        (if dfDaily.isEmpty then [] else
          (dropnaOHLC dfDaily).map (fun r => (symbol, r)))) ∧
      ((cacheSyncWrite db symbol dfDaily dfWeekly
          FailPoint.ok now).2.daily.filter (fun r => r.1 ≠ symbol) =
        db.daily.filter (fun r => r.1 ≠ symbol)) ∧
      ((cacheSyncWrite db symbol dfDaily dfWeekly
          FailPoint.ok now).2.weekly.filter (fun r => r.1 = symbol) =
        (if dfWeekly.isEmpty then [] else
          (dropnaOHLC dfWeekly).map (fun r => (symbol, r)))) ∧
      ((cacheSyncWrite db symbol dfDaily dfWeekly
          FailPoint.ok now).2.weekly.filter (fun r => r.1 ≠ symbol) =
        db.weekly.filter (fun r => r.1 ≠ symbol)) ∧
      ((cacheSyncWrite db symbol dfDaily dfWeekly
          FailPoint.ok now).2.meta.filter (fun m => m.symbol ≠ symbol) =
        db.meta.filter (fun m => m.symbol ≠ symbol)) ∧
      (((cacheSyncWrite db symbol dfDaily dfWeekly
          FailPoint.ok now).2.meta.filter
            (fun m => m.symbol = symbol)).map MetaRow.lastUpdated =
        [now])) ∧
    (∀ (db : Database) (symbol : String) (dfDaily dfWeekly : List DbRow)
       (now : ℕ),
      (!dfDaily.isEmpty && !(dropnaOHLC dfDaily).isEmpty) = true →
      cacheSyncWrite db symbol dfDaily dfWeekly FailPoint.daily now =
        (none, db)) ∧
    (∀ (db : Database) (symbol : String) (dfDaily dfWeekly : List DbRow)
       (now : ℕ),
      (!dfDaily.isEmpty && !(dropnaOHLC dfDaily).isEmpty) = true →
      (!dfWeekly.isEmpty && !(dropnaOHLC dfWeekly).isEmpty) = true →
      cacheSyncWrite db symbol dfDaily dfWeekly FailPoint.weekly now =
        (none,
         { daily := db.daily.filter (fun r => r.1 ≠ symbol) ++
             (dropnaOHLC dfDaily).map (fun r => (symbol, r)),
           weekly := db.weekly.filter (fun r => r.1 ≠ symbol),
           meta := db.meta })) ∧
    ((cacheSyncWrite c7Db "A" [c7Row] [c7Row] FailPoint.weekly 5 =
       (none, { daily := [("A", c7Row)], weekly := [], meta := [] })) ∧
     c7Db.weekly ≠ []) := by
  refine ⟨?_, ?_, ?_, ?_⟩
  · intro db symbol dfDaily dfWeekly now
    refine ⟨?_, ?_, ?_, ?_, ?_, ?_, ?_⟩ <;>
      simp only [cacheSyncWrite, saveToDb, updateMetadata] <;>
      by_cases hd : dfDaily.isEmpty <;>
      by_cases hd2 : (dropnaOHLC dfDaily).isEmpty <;>
      by_cases hw : dfWeekly.isEmpty <;>
      by_cases hw2 : (dropnaOHLC dfWeekly).isEmpty <;>
      simp [hd, hd2, hw, hw2, List.filter_append, List.filter_filter,
        List.filter_map, Function.comp] <;>
      (try simp [Function.comp_def, List.filter_eq_nil_iff]) <;>
      (try exact List.isEmpty_iff.mp hd2) <;>
      (try exact List.isEmpty_iff.mp hw2)
  · intro db symbol dfDaily dfWeekly now h
    unfold cacheSyncWrite saveToDb
    dsimp only
    have hcond : FailPoint.daily = FailPoint.daily ∧
        (!dfDaily.isEmpty && !(dropnaOHLC dfDaily).isEmpty) = true :=
      ⟨rfl, h⟩
    rw [if_pos hcond]
    rfl
  · intro db symbol dfDaily dfWeekly now hD hW
    unfold cacheSyncWrite saveToDb
    dsimp only
    have hc1 : ¬(FailPoint.weekly = FailPoint.daily ∧
        (!dfDaily.isEmpty && !(dropnaOHLC dfDaily).isEmpty) = true) := by
      rintro ⟨h2, -⟩
      cases h2
    have hc2 : FailPoint.weekly = FailPoint.weekly ∧
        (!dfWeekly.isEmpty && !(dropnaOHLC dfWeekly).isEmpty) = true :=
      ⟨rfl, hW⟩
    rw [if_neg hc1, if_pos hD, if_pos hc2]
    rfl
  · exact ⟨of_decide_eq_true (by with_unfolding_all rfl),
      of_decide_eq_true (by with_unfolding_all rfl)⟩

set_option maxRecDepth 100000 in
/-- C7 witness: on the concrete store the weekly-insert failure leaves
the daily rows replaced, the weekly rows deleted and the metadata
untouched. -/
theorem C7_write_atomicity_violated_witness :
    cacheSyncWrite c7Db "A" [c7Row] [c7Row] FailPoint.weekly 5 =
      (none,
       { daily := c7Db.daily.filter (fun r => r.1 ≠ "A") ++
           (dropnaOHLC [c7Row]).map (fun r => ("A", r)),
         weekly := c7Db.weekly.filter (fun r => r.1 ≠ "A"),
         meta := c7Db.meta }) :=
  C7_write_atomicity_violated.2.2.1 c7Db "A" [c7Row] [c7Row] 5
    (by with_unfolding_all rfl) (by with_unfolding_all rfl)

set_option maxRecDepth 100000 in
/-- C10 witness: the gap found on the C10 dataset forms at date 4,
strictly before the last bar's date 6. -/
theorem C10_gap_never_on_last_bar_witness :
    (⟨1, 0, 4, 3 / 50, 100, 106, Status.active, none⟩ : Fvg).formationDate <
      (c10Bar 6).date :=
  C10_gap_never_on_last_bar c10Daily c10Setup 1
    (of_decide_eq_true (by with_unfolding_all rfl))
    ⟨1, 0, 4, 3 / 50, 100, 106, Status.active, none⟩
    (of_decide_eq_true (by with_unfolding_all rfl))
    (c10Bar 6)
    (of_decide_eq_true (by with_unfolding_all rfl))

set_option maxRecDepth 100000 in
/-- C6 witness: bar 14 of the C6 series yields a PRIMARY setup, via the
zone condition on both body ends. -/
theorem C6_setup_classification_witness :
    ∃ s ∈ optimized_rule2_setups c6Daily wkFrame false (some 0) 0,
      s.date = c6Row.date ∧ s.type = SetupType.primary :=
  (C6_setup_classification c6Daily wkFrame false (some 0) 0
      (of_decide_eq_true (by with_unfolding_all rfl))
      14 c6Row
      (of_decide_eq_true (by with_unfolding_all rfl))
      (of_decide_eq_true (by with_unfolding_all rfl))
      (of_decide_eq_true (by with_unfolding_all rfl))
      100 100 4 rfl rfl
      (of_decide_eq_true (by with_unfolding_all rfl))
      (of_decide_eq_true (by with_unfolding_all rfl))).1.mpr
    (of_decide_eq_true (by with_unfolding_all rfl))

end HWB
